import Mathlib

/-!
# Verification of the colord IT8 document model (`cd-it8.c`)

Shallow embedding of the IT8 calibration-file document model: the in-memory
`CdIt8` document, the lcms tokenizer collaborator (modelled as a structured
property-bag plus cell table, per the spec's interface boundary), and the
loader/saver logic, translated from `cd-it8.c`.

Doubles are modelled as exact rationals (`ℚ`); the `%f` printf formatting used
for the `LUMINANCE_XYZ_CDM2` property is modelled as decimal formatting with
six fraction digits (round half up), and C `atof` as a parser of an optional
sign, integer digits and an optional fraction (no input in this development
uses exponent notation).  C `NULL` strings are `Option.none`.
-/

/-- RGB triple (doubles modelled as `ℚ`), from `CdColorRGB`. -/
structure CdColorRGB where
  R : ℚ
  G : ℚ
  B : ℚ
deriving DecidableEq, Repr

/-- XYZ triple (doubles modelled as `ℚ`), from `CdColorXYZ`. -/
structure CdColorXYZ where
  X : ℚ
  Y : ℚ
  Z : ℚ
deriving DecidableEq, Repr

/-- 3×3 matrix of doubles, from `CdMat3x3`. -/
structure CdMat3x3 where
  m00 : ℚ
  m01 : ℚ
  m02 : ℚ
  m10 : ℚ
  m11 : ℚ
  m12 : ℚ
  m20 : ℚ
  m21 : ℚ
  m22 : ℚ
deriving DecidableEq, Repr

/-- `cd_mat33_clear`: the all-zero matrix (also the GObject zero-initial value). -/
def cdMat33Zero : CdMat3x3 := ⟨0, 0, 0, 0, 0, 0, 0, 0, 0⟩

/-- The IT8 file kind (`CdIt8Kind`); `unknown` models the zero default of the
GObject `kind` property. -/
inductive CdIt8Kind where
  | unknown
  | ti1
  | ti3
  | ccmx
deriving DecidableEq, Repr

/-- The in-memory document (`CdIt8Private`).  Field defaults are the GObject
zero-initialised state produced by `cd_it8_new`. -/
structure CdIt8 where
  kind : CdIt8Kind := CdIt8Kind.unknown
  matrix : CdMat3x3 := cdMat33Zero
  normalized : Bool := false
  spectral : Bool := false
  instrument : Option String := none
  reference : Option String := none
  originator : Option String := none
  array_rgb : List CdColorRGB := []
  array_xyz : List CdColorXYZ := []
deriving DecidableEq, Repr

/-- `cd_it8_new`: a freshly constructed, zero-initialised document. -/
def cd_it8_new : CdIt8 := {}

/-- The typed failures of the loader/saver, one constructor per
`g_set_error` site of `cd-it8.c` (names follow the spec's error taxonomy). -/
inductive CdIt8Error where
  /-- `cmsIT8LoadFromMem` returned `NULL` (or the bytes could not be read). -/
  | Malformed
  /-- sheet-type tag not recognised (`"Invalid sheet type"`). -/
  | UnknownVariant
  /-- `COLOR_REP` missing or wrong for the variant (`"Invalid data format"`). -/
  | InvalidColorRepresentation
  /-- `LUMINANCE_XYZ_CDM2` did not split into three tokens. -/
  | InvalidLuminance
  /-- normalised save found no white sample (`"Failed to find any white samples"`). -/
  | NoWhiteSample
deriving DecidableEq, Repr

/-! ## The tokenizer collaborator (lcms `cmsIT8` handle)

Modelled at the interface boundary the spec gives: a sheet-type tag, a
string-property bag, a double-property bag, the data-format row and a numeric
cell table.  Setting a property pushes the newest binding in front; lookup
takes the first binding.  A missing double property or cell reads as `0`,
as `cmsIT8GetPropertyDbl` / `cmsIT8GetDataRowColDbl` return `0` there. -/
structure CmsIT8 where
  sheetType : String
  strProps : List (String × String)
  dblProps : List (String × ℚ)
  dataFormat : List (Nat × String)
  data : Nat × Nat → ℚ

/-- `cmsIT8Alloc`: an empty handle. -/
def cmsIT8Alloc : CmsIT8 := ⟨"", [], [], [], fun _ => 0⟩

/-- `cmsIT8GetSheetType`. -/
def cmsIT8GetSheetType (f : CmsIT8) : String := f.sheetType

/-- `cmsIT8SetSheetType`. -/
def cmsIT8SetSheetType (f : CmsIT8) (s : String) : CmsIT8 := { f with sheetType := s }

/-- `cmsIT8GetProperty`: `none` models a `NULL` return. -/
def cmsIT8GetProperty (f : CmsIT8) (k : String) : Option String :=
  (f.strProps.find? (fun p => p.1 == k)).map (fun p => p.2)

/-- `cmsIT8SetPropertyStr`. -/
def cmsIT8SetPropertyStr (f : CmsIT8) (k v : String) : CmsIT8 :=
  { f with strProps := (k, v) :: f.strProps }

/-- `cmsIT8GetPropertyDbl` (missing property reads as `0`). -/
def cmsIT8GetPropertyDbl (f : CmsIT8) (k : String) : ℚ :=
  ((f.dblProps.find? (fun p => p.1 == k)).map (fun p => p.2)).getD 0

/-- `cmsIT8SetPropertyDbl`. -/
def cmsIT8SetPropertyDbl (f : CmsIT8) (k : String) (v : ℚ) : CmsIT8 :=
  { f with dblProps := (k, v) :: f.dblProps }

/-- `cmsIT8GetDataRowColDbl` (missing cell reads as `0`). -/
def cmsIT8GetDataRowColDbl (f : CmsIT8) (row col : Nat) : ℚ := f.data (row, col)

/-- `cmsIT8SetDataRowColDbl`. -/
def cmsIT8SetDataRowColDbl (f : CmsIT8) (row col : Nat) (v : ℚ) : CmsIT8 :=
  { f with data := fun p => if p = (row, col) then v else f.data p }

/-- `cmsIT8SetDataFormat`. -/
def cmsIT8SetDataFormat (f : CmsIT8) (i : Nat) (s : String) : CmsIT8 :=
  { f with dataFormat := (i, s) :: f.dataFormat }

/-- The `if (x != NULL) cmsIT8SetPropertyStr(...)` idiom of the saver: set a
string property only when the optional value is present. -/
def cmsIT8SetPropertyStrOpt (f : CmsIT8) (k : String) : Option String → CmsIT8
  | some v => cmsIT8SetPropertyStr f k v
  | none => f

/-! ## Numeric text helpers: `g_strsplit`, `atof`, `printf "%f"` -/

/-- Value of a decimal digit character, `none` for any other character. -/
def digitVal (c : Char) : Option Nat :=
  if '0' ≤ c ∧ c ≤ '9' then some (c.toNat - 48) else none

/-- Fuel-driven base-10 digit expansion (least-significant first), agreeing
with `Nat.digits 10` whenever the fuel dominates the argument; the fuel makes
it kernel-reducible. -/
def natToDigitsAux : Nat → Nat → List Nat
  | 0, _ => []
  | _ + 1, 0 => []
  | fuel + 1, n + 1 => ((n + 1) % 10) :: natToDigitsAux fuel ((n + 1) / 10)

/-- Base-10 digits of `n`, least-significant first. -/
def natDigits (n : Nat) : List Nat := natToDigitsAux n n

/-- Most-significant-first digit list of `n`, with `[0]` for zero (what a
decimal printer emits for the integer part). -/
def msbDigits (n : Nat) : List Nat :=
  if n = 0 then [0] else (natDigits n).reverse

/-- Decimal rendering of a natural number. -/
def fmtNat (n : Nat) : List Char := (msbDigits n).map Nat.digitChar

/-- The six fraction digits of `printf "%f"`: `fp < 10^6` rendered with
leading zeros to width six. -/
def fmtFrac6 (fp : Nat) : List Char :=
  (List.replicate (6 - ((natDigits fp).reverse).length) 0 ++ (natDigits fp).reverse).map
    Nat.digitChar

/-- Model of `printf "%f"` on a double: sign, integer part, `'.'`, six
fraction digits, rounding half up at the seventh decimal. -/
def fmtF (q : ℚ) : List Char :=
  let m : Nat := (⌊|q| * 1000000 + 1 / 2⌋).toNat
  (if q < 0 then ['-'] else []) ++ fmtNat (m / 1000000) ++ '.' :: fmtFrac6 (m % 1000000)

/-- The value `printf "%f"` preserves of `q`: `q` rounded (half up) to six
decimal places — the "serialization precision" of the luminance property. -/
def round6 (q : ℚ) : ℚ :=
  (if q < 0 then -1 else 1) * ((⌊|q| * 1000000 + 1 / 2⌋).toNat : ℚ) / 1000000

/-- The `"%f %f %f"` rendering of a luminance triple (`lumi_str`). -/
def lumiString (x y z : ℚ) : String :=
  String.mk (fmtF x ++ ' ' :: (fmtF y ++ ' ' :: fmtF z))

/-- Split a character list on every single space, keeping empty tokens
(the token behaviour of `g_strsplit (text, " ", -1)`). -/
def splitSpAux : List Char → List Char → List (List Char)
  | [], cur => [cur.reverse]
  | c :: cs, cur =>
    if c = ' ' then cur.reverse :: splitSpAux cs [] else splitSpAux cs (c :: cur)

/-- `g_strsplit (text, " ", -1)`: `NULL` input gives the empty vector (after a
glib warning), and so does the empty string (glib's documented special case). -/
def g_strsplit : Option String → List (List Char)
  | none => []
  | some s => if s.data = [] then [] else splitSpAux s.data []

/-- Integer-part scanner of `atof`: consume leading decimal digits into an
accumulator, returning the value and the unconsumed rest. -/
def parseIntAux : List Char → Nat → Nat × List Char
  | [], acc => (acc, [])
  | c :: cs, acc =>
    match digitVal c with
    | some d => parseIntAux cs (acc * 10 + d)
    | none => (acc, c :: cs)

/-- Fraction scanner of `atof`: consume digits after the decimal point with
decreasing place value `w`. -/
def parseFracAux : List Char → ℚ → ℚ → ℚ
  | [], acc, _ => acc
  | c :: cs, acc, w =>
    match digitVal c with
    | some d => parseFracAux cs (acc + d * w) (w / 10)
    | none => acc

/-- Model of C `atof` on the strings this code produces or is given: skip
leading spaces, test the first character for a sign, then integer digits and
an optional `'.'` fraction.  A token with no leading numeric prefix yields
`0`, as `atof` does; exponent notation is not modelled (no input here
carries it). -/
def atofL (cs : List Char) : ℚ :=
  let cs₀ := cs.dropWhile (fun c => c = ' ')
  let neg : Bool := cs₀.headD 'x' = '-'
  let cs₁ := if cs₀.headD 'x' = '-' ∨ cs₀.headD 'x' = '+' then cs₀.tail else cs₀
  let ip := parseIntAux cs₁ 0
  let fr : ℚ :=
    match ip.2 with
    | '.' :: fs => parseFracAux fs 0 (1 / 10)
    | _ => 0
  (if neg then -1 else 1) * ((ip.1 : ℚ) + fr)

/-! ## The document model operations (`cd-it8.c`) -/

/-- `cd_it8_set_kind`. -/
def cd_it8_set_kind (it8 : CdIt8) (k : CdIt8Kind) : CdIt8 := { it8 with kind := k }

/-- `cd_it8_set_spectral`. -/
def cd_it8_set_spectral (it8 : CdIt8) (b : Bool) : CdIt8 := { it8 with spectral := b }

/-- `cd_it8_set_instrument` (`g_strdup NULL = NULL`). -/
def cd_it8_set_instrument (it8 : CdIt8) (s : Option String) : CdIt8 :=
  { it8 with instrument := s }

/-- `cd_it8_set_originator`. -/
def cd_it8_set_originator (it8 : CdIt8) (s : Option String) : CdIt8 :=
  { it8 with originator := s }

/-- `cd_it8_set_reference`. -/
def cd_it8_set_reference (it8 : CdIt8) (s : Option String) : CdIt8 :=
  { it8 with reference := s }

/-- `cd_it8_parse_luminance`: split on single spaces; fail unless exactly
three tokens; `atof` each token (which never fails). -/
def cd_it8_parse_luminance (text : Option String) : Option CdColorXYZ :=
  let split := g_strsplit text
  if split.length ≠ 3 then none
  else some ⟨atofL (split.getD 0 []), atofL (split.getD 1 []), atofL (split.getD 2 [])⟩

/-- `cd_it8_color_match`: each channel must be within `0.01` of the target
(the source rejects on `ABS (channel - target) > 0.01`). -/
def cd_it8_color_match (rgb : CdColorRGB) (r g b : ℚ) : Bool :=
  if |rgb.R - r| > 1 / 100 then false
  else if |rgb.G - g| > 1 / 100 then false
  else if |rgb.B - b| > 1 / 100 then false
  else true

/-- `cd_it8_add_data`: the source duplicates the RGB argument or substitutes
black when it is `NULL`; the XYZ branch tests the *RGB* argument again, so a
present RGB with an absent XYZ passes `NULL` to `cd_color_xyz_dup`.
`cd_color_xyz_dup` is not under `src/`; Modelled from the spec:
duplication of a colour value, which has no defined result on a null
pointer — that call is modelled as `none` (no defined post-state). -/
def cd_it8_add_data (it8 : CdIt8) (rgb : Option CdColorRGB) (xyz : Option CdColorXYZ) :
    Option CdIt8 :=
  let rgb_tmp : CdColorRGB :=
    match rgb with
    | some r => r
    | none => ⟨0, 0, 0⟩
  match rgb with
  | some _ =>
    match xyz with
    | some x =>
      some { it8 with
              array_rgb := it8.array_rgb ++ [rgb_tmp],
              array_xyz := it8.array_xyz ++ [x] }
    | none => none
  | none =>
    some { it8 with
            array_rgb := it8.array_rgb ++ [rgb_tmp],
            array_xyz := it8.array_xyz ++ [⟨0, 0, 0⟩] }

/-- `cd_it8_get_data_size`: the XYZ array length. -/
def cd_it8_get_data_size (it8 : CdIt8) : Nat := it8.array_xyz.length

/-- `cd_it8_get_data_item`: the source rejects only `idx > len` (not `≥`);
in the accepted case the arrays are read unchecked, so the entry at `len`
has no defined value (`none` via `List.get?`). -/
def cd_it8_get_data_item (it8 : CdIt8) (idx : Nat) :
    Bool × Option CdColorRGB × Option CdColorXYZ :=
  if idx > it8.array_xyz.length then (false, none, none)
  else (true, it8.array_rgb[idx]?, it8.array_xyz[idx]?)

/-- `cd_it8_load_ti1_ti3`: returns the (possibly mutated) document together
with an optional error, since the C function mutates its argument in place
and failure does not roll that back. -/
def cd_it8_load_ti1_ti3 (it8 : CdIt8) (f : CmsIT8) : CdIt8 × Option CdIt8Error :=
  if cmsIT8GetProperty f "COLOR_REP" ≠ some "RGB_XYZ" then
    (it8, some CdIt8Error.InvalidColorRepresentation)
  else
    let scaled_to_y100 : Bool := cmsIT8GetProperty f "NORMALIZED_TO_Y_100" = some "YES"
    let lum : Option CdColorXYZ :=
      if scaled_to_y100 then cd_it8_parse_luminance (cmsIT8GetProperty f "LUMINANCE_XYZ_CDM2")
      else some ⟨0, 0, 0⟩
    match lum with
    | none => (it8, some CdIt8Error.InvalidLuminance)
    | some luminance =>
      let it8 := cd_it8_set_spectral it8
        (cmsIT8GetProperty f "INSTRUMENT_TYPE_SPECTRAL" = some "YES")
      let it8 := cd_it8_set_instrument it8 (cmsIT8GetProperty f "TARGET_INSTRUMENT")
      let number_of_sets : Nat := (⌊cmsIT8GetPropertyDbl f "NUMBER_OF_SETS"⌋).toNat
      let rgbs : List CdColorRGB := (List.range number_of_sets).map (fun i =>
        let r : CdColorRGB :=
          ⟨cmsIT8GetDataRowColDbl f i 1, cmsIT8GetDataRowColDbl f i 2,
           cmsIT8GetDataRowColDbl f i 3⟩
        if scaled_to_y100 then ⟨r.R / 100, r.G / 100, r.B / 100⟩ else r)
      let xyzs : List CdColorXYZ := (List.range number_of_sets).map (fun i =>
        let x : CdColorXYZ :=
          ⟨cmsIT8GetDataRowColDbl f i 4, cmsIT8GetDataRowColDbl f i 5,
           cmsIT8GetDataRowColDbl f i 6⟩
        if scaled_to_y100 then
          ⟨x.X / 100 * luminance.X, x.Y / 100 * luminance.Y, x.Z / 100 * luminance.Z⟩
        else x)
      ({ it8 with
          array_rgb := it8.array_rgb ++ rgbs,
          array_xyz := it8.array_xyz ++ xyzs }, none)

/-- `cd_it8_load_ccmx`. -/
def cd_it8_load_ccmx (it8 : CdIt8) (f : CmsIT8) : CdIt8 × Option CdIt8Error :=
  if cmsIT8GetProperty f "COLOR_REP" ≠ some "XYZ" then
    (it8, some CdIt8Error.InvalidColorRepresentation)
  else
    let it8 := cd_it8_set_instrument it8 (cmsIT8GetProperty f "INSTRUMENT")
    ({ it8 with
        matrix :=
          ⟨cmsIT8GetDataRowColDbl f 0 0, cmsIT8GetDataRowColDbl f 0 1,
           cmsIT8GetDataRowColDbl f 0 2, cmsIT8GetDataRowColDbl f 1 0,
           cmsIT8GetDataRowColDbl f 1 1, cmsIT8GetDataRowColDbl f 1 2,
           cmsIT8GetDataRowColDbl f 2 0, cmsIT8GetDataRowColDbl f 2 1,
           cmsIT8GetDataRowColDbl f 2 2⟩ }, none)

/-- `g_str_has_prefix`, on the character lists of the two strings. -/
def strHasPre (p s : String) : Bool := p.data.isPrefixOf s.data

/-- The common tail of `cd_it8_load`: `ORIGINATOR` and `REFERENCE`. -/
def cd_it8_load_common (it8 : CdIt8) (f : CmsIT8) : CdIt8 :=
  cd_it8_set_reference (cd_it8_set_originator it8 (cmsIT8GetProperty f "ORIGINATOR"))
    (cmsIT8GetProperty f "REFERENCE")

/-- `cd_it8_load`.  The input models the tokenizer's bulk parse of the bytes:
`none` when `cmsIT8LoadFromMem` (or reading the file) fails.  The sample
arrays and the matrix are cleared unconditionally before anything is parsed,
exactly as in the source; the mutated document is returned together with the
optional error. -/
def cd_it8_load (it8 : CdIt8) (input : Option CmsIT8) : CdIt8 × Option CdIt8Error :=
  let it8 : CdIt8 := { it8 with array_rgb := [], array_xyz := [], matrix := cdMat33Zero }
  match input with
  | none => (it8, some CdIt8Error.Malformed)
  | some f =>
    let tmp := cmsIT8GetSheetType f
    if strHasPre "CTI1" tmp then
      match cd_it8_load_ti1_ti3 (cd_it8_set_kind it8 CdIt8Kind.ti1) f with
      | (it8, some e) => (it8, some e)
      | (it8, none) => (cd_it8_load_common it8 f, none)
    else if strHasPre "CTI3" tmp then
      match cd_it8_load_ti1_ti3 (cd_it8_set_kind it8 CdIt8Kind.ti3) f with
      | (it8, some e) => (it8, some e)
      | (it8, none) => (cd_it8_load_common it8 f, none)
    else if strHasPre "CCMX" tmp then
      match cd_it8_load_ccmx (cd_it8_set_kind it8 CdIt8Kind.ccmx) f with
      | (it8, some e) => (it8, some e)
      | (it8, none) => (cd_it8_load_common it8 f, none)
    else
      (it8, some CdIt8Error.UnknownVariant)

/-- The white-reference scan of `cd_it8_save_ti1_ti3`: walk the RGB array,
count samples matching 100% white, accumulate their XYZ and track the largest
white Y seen (starting from `0.0`, with a strict `>` update, as the source
does). -/
def cd_it8_white_scan (rgbs : List CdColorRGB) (xyzs : List CdColorXYZ) :
    Nat × CdColorXYZ × ℚ :=
  (List.range rgbs.length).foldl
    (fun acc i =>
      let rgb_tmp := rgbs.getD i ⟨0, 0, 0⟩
      if cd_it8_color_match rgb_tmp 1 1 1 then
        let xyz_tmp := xyzs.getD i ⟨0, 0, 0⟩
        (acc.1 + 1,
         ⟨acc.2.1.X + xyz_tmp.X, acc.2.1.Y + xyz_tmp.Y, acc.2.1.Z + xyz_tmp.Z⟩,
         if xyz_tmp.Y > acc.2.2 then xyz_tmp.Y else acc.2.2)
      else acc)
    (0, ⟨0, 0, 0⟩, 0)

/-- The final value of the C return variable `ret` after the white-reference
scan of `cd_it8_save_ti1_ti3`: the scan loop overwrites `ret` with each
sample's white-match result (`ret = cd_it8_color_match (rgb_tmp, 1.0f, 1.0f,
1.0f)`) and never resets it afterwards, so when the document is normalised and
the array is nonempty `ret` ends as the last sample's match result; when the
document is not normalised (the loop does not run) or the array is empty it
keeps its initial `TRUE`. -/
def cd_it8_scan_ret (it8 : CdIt8) : Bool :=
  if it8.normalized then
    (List.range it8.array_rgb.length).foldl
      (fun _ i => cd_it8_color_match (it8.array_rgb.getD i ⟨0, 0, 0⟩) 1 1 1) true
  else true

/-- One data row written by `cd_it8_save_ti1_ti3`: 1-based sample id, raw RGB,
and XYZ scaled by `normalize` when the document is normalised. -/
def cd_it8_write_row (it8 : CdIt8) (normalize : ℚ) (f : CmsIT8) (i : Nat) : CmsIT8 :=
  let rgb_tmp := it8.array_rgb.getD i ⟨0, 0, 0⟩
  let xyz_tmp := it8.array_xyz.getD i ⟨0, 0, 0⟩
  let f := cmsIT8SetDataRowColDbl f i 0 ((i : ℚ) + 1)
  let f := cmsIT8SetDataRowColDbl f i 1 rgb_tmp.R
  let f := cmsIT8SetDataRowColDbl f i 2 rgb_tmp.G
  let f := cmsIT8SetDataRowColDbl f i 3 rgb_tmp.B
  if it8.normalized then
    cmsIT8SetDataRowColDbl
      (cmsIT8SetDataRowColDbl
        (cmsIT8SetDataRowColDbl f i 4 (xyz_tmp.X * normalize))
        i 5 (xyz_tmp.Y * normalize))
      i 6 (xyz_tmp.Z * normalize)
  else
    cmsIT8SetDataRowColDbl
      (cmsIT8SetDataRowColDbl
        (cmsIT8SetDataRowColDbl f i 4 xyz_tmp.X)
        i 5 xyz_tmp.Y)
      i 6 xyz_tmp.Z

/-- `cd_it8_save_ti1_ti3`.  The C function's return variable is clobbered by
the white scan (see `cd_it8_scan_ret`): after the scan it holds the last
sample's white-match result, it is never reset, and the function ends with
`return ret` — so a normalised save whose last sample does not match white
returns `FALSE` with no `GError` set even though the handle was fully
written; the caller then discards the handle.  That path is `Except.error
none`; the explicit no-white-sample failure is `Except.error (some _)`. -/
def cd_it8_save_ti1_ti3 (it8 : CdIt8) (f : CmsIT8) : Except (Option CdIt8Error) CmsIT8 :=
  let scan := cd_it8_white_scan it8.array_rgb it8.array_xyz
  if it8.normalized ∧ scan.1 = 0 then Except.error (some CdIt8Error.NoWhiteSample)
  else
    let lumi_xyz : CdColorXYZ :=
      if it8.normalized then
        ⟨scan.2.1.X / (scan.1 : ℚ), scan.2.1.Y / (scan.1 : ℚ), scan.2.1.Z / (scan.1 : ℚ)⟩
      else ⟨0, 0, 0⟩
    let normalize : ℚ := if it8.normalized then 100 / scan.2.2 else 0
    let lumi_str := lumiString lumi_xyz.X lumi_xyz.Y lumi_xyz.Z
    let f :=
      match it8.kind with
      | CdIt8Kind.ti1 =>
        cmsIT8SetPropertyStr (cmsIT8SetSheetType f "CTI1") "DESCRIPTOR"
          "Calibration Target chart information 1"
      | CdIt8Kind.ti3 =>
        cmsIT8SetPropertyStr (cmsIT8SetSheetType f "CTI3") "DESCRIPTOR"
          "Calibration Target chart information 3"
      | _ => f
    let f :=
      if it8.kind = CdIt8Kind.ti3 then cmsIT8SetPropertyStr f "DEVICE_CLASS" "DISPLAY" else f
    let f := cmsIT8SetPropertyStr f "COLOR_REP" "RGB_XYZ"
    let f := cmsIT8SetPropertyStrOpt f "TARGET_INSTRUMENT" it8.instrument
    let f := cmsIT8SetPropertyStr f "INSTRUMENT_TYPE_SPECTRAL"
      (if it8.spectral then "YES" else "NO")
    let f :=
      if it8.normalized then
        cmsIT8SetPropertyStr (cmsIT8SetPropertyStr f "NORMALIZED_TO_Y_100" "YES")
          "LUMINANCE_XYZ_CDM2" lumi_str
      else
        cmsIT8SetPropertyStr f "NORMALIZED_TO_Y_100" "NO"
    let f := cmsIT8SetPropertyDbl f "NUMBER_OF_FIELDS" 7
    let f := cmsIT8SetPropertyDbl f "NUMBER_OF_SETS" (it8.array_rgb.length : ℚ)
    let f := cmsIT8SetDataFormat f 0 "SAMPLE_ID"
    let f := cmsIT8SetDataFormat f 1 "RGB_R"
    let f := cmsIT8SetDataFormat f 2 "RGB_G"
    let f := cmsIT8SetDataFormat f 3 "RGB_B"
    let f := cmsIT8SetDataFormat f 4 "XYZ_X"
    let f := cmsIT8SetDataFormat f 5 "XYZ_Y"
    let f := cmsIT8SetDataFormat f 6 "XYZ_Z"
    if cd_it8_scan_ret it8 then
      Except.ok ((List.range it8.array_rgb.length).foldl (cd_it8_write_row it8 normalize) f)
    else
      Except.error none

/-- `cd_it8_save_ccmx`. -/
def cd_it8_save_ccmx (it8 : CdIt8) (f : CmsIT8) : Except (Option CdIt8Error) CmsIT8 :=
  let f := cmsIT8SetSheetType f "CCMX"
  let f := cmsIT8SetPropertyStr f "DESCRIPTOR" "Device Correction Matrix"
  let f := cmsIT8SetPropertyStr f "COLOR_REP" "XYZ"
  let f := cmsIT8SetPropertyDbl f "NUMBER_OF_FIELDS" 3
  let f := cmsIT8SetPropertyDbl f "NUMBER_OF_SETS" 3
  let f := cmsIT8SetDataFormat f 0 "XYZ_X"
  let f := cmsIT8SetDataFormat f 1 "XYZ_Y"
  let f := cmsIT8SetDataFormat f 2 "XYZ_Z"
  let f := cmsIT8SetPropertyStrOpt f "INSTRUMENT" it8.instrument
  let f := cmsIT8SetDataRowColDbl f 0 0 it8.matrix.m00
  let f := cmsIT8SetDataRowColDbl f 0 1 it8.matrix.m01
  let f := cmsIT8SetDataRowColDbl f 0 2 it8.matrix.m02
  let f := cmsIT8SetDataRowColDbl f 1 0 it8.matrix.m10
  let f := cmsIT8SetDataRowColDbl f 1 1 it8.matrix.m11
  let f := cmsIT8SetDataRowColDbl f 1 2 it8.matrix.m12
  let f := cmsIT8SetDataRowColDbl f 2 0 it8.matrix.m20
  let f := cmsIT8SetDataRowColDbl f 2 1 it8.matrix.m21
  let f := cmsIT8SetDataRowColDbl f 2 2 it8.matrix.m22
  Except.ok f

/-- `cd_it8_save`: common metadata first, then the variant-specific body.
The tokenizer's serialisation to bytes (and the trailing-NUL workaround) is
the out-of-scope structural layer; the produced handle stands for the bytes.
A sub-save returning `FALSE` makes `cd_it8_save` jump to `out` without ever
serialising, so on `Except.error e` no bytes are produced; `e = none` is the
`FALSE`-with-no-`GError` path of `cd_it8_save_ti1_ti3`. -/
def cd_it8_save (it8 : CdIt8) : Except (Option CdIt8Error) CmsIT8 :=
  let f := cmsIT8Alloc
  let f := cmsIT8SetPropertyStrOpt f "ORIGINATOR" it8.originator
  let f := cmsIT8SetPropertyStrOpt f "REFERENCE" it8.reference
  if it8.kind = CdIt8Kind.ti1 ∨ it8.kind = CdIt8Kind.ti3 then cd_it8_save_ti1_ti3 it8 f
  else if it8.kind = CdIt8Kind.ccmx then cd_it8_save_ccmx it8 f
  else Except.ok f

/-! ## Claim-side helper definitions and concrete test fixtures -/

/-- A finite sequence of `cd_it8_add_data` calls, aborting if any call has no
defined post-state. -/
def addSeq (d : CdIt8) : List (Option CdColorRGB × Option CdColorXYZ) → Option CdIt8
  | [] => some d
  | p :: ps =>
    match cd_it8_add_data d p.1 p.2 with
    | some d' => addSeq d' ps
    | none => none

/-- A normalised CTI3 document with one black sample followed by one
exact-white sample whose XYZ is a realistic white point.  The white sample is
last, so the saver's clobbered return variable ends `TRUE` and the save
genuinely succeeds. -/
def docWhite : CdIt8 :=
  { kind := CdIt8Kind.ti3, normalized := true,
    array_rgb := [⟨0, 0, 0⟩, ⟨1, 1, 1⟩],
    array_xyz := [⟨0, 0, 0⟩, ⟨95, 100, 109⟩] }

/-- The same samples as `docWhite` but with the white sample first and the
black sample last: the saver's return variable, overwritten with each
sample's white-match result, ends `FALSE`, so the save fails with no error
set even though a white reference exists. -/
def docWhiteBlack : CdIt8 :=
  { kind := CdIt8Kind.ti3, normalized := true,
    array_rgb := [⟨1, 1, 1⟩, ⟨0, 0, 0⟩],
    array_xyz := [⟨95, 100, 109⟩, ⟨0, 0, 0⟩] }

/-- A normalised CTI3 document with no white-reference sample. -/
def docNoWhite : CdIt8 :=
  { kind := CdIt8Kind.ti3, normalized := true,
    array_rgb := [⟨1/2, 1/2, 1/2⟩],
    array_xyz := [⟨50, 50, 50⟩] }

/-- A one-sample document (for the index-bound claim). -/
def docOne : CdIt8 :=
  { kind := CdIt8Kind.ti3,
    array_rgb := [⟨1, 1, 1⟩],
    array_xyz := [⟨1, 2, 3⟩] }

/-- A document holding prior state (for the failed-load claim). -/
def docPrior : CdIt8 :=
  { kind := CdIt8Kind.ti3, normalized := true,
    array_rgb := [⟨1, 1, 1⟩],
    array_xyz := [⟨1, 2, 3⟩],
    matrix := ⟨1, 1, 1, 1, 1, 1, 1, 1, 1⟩ }

/-- A correction-matrix document with a generic matrix. -/
def docCcmx : CdIt8 :=
  { kind := CdIt8Kind.ccmx,
    matrix := ⟨1, 2, 3, 4, 5, 6, 7, 8, (9 : ℚ) / 7⟩ }

/-- A tokenized CTI3 handle whose luminance property has three non-numeric
tokens. -/
def fBadLum : CmsIT8 :=
  { sheetType := "CTI3",
    strProps := [("COLOR_REP", "RGB_XYZ"), ("NORMALIZED_TO_Y_100", "YES"),
                 ("LUMINANCE_XYZ_CDM2", "a b c")],
    dblProps := [("NUMBER_OF_SETS", 0)],
    dataFormat := [],
    data := fun _ => 0 }

/-- A tokenized CTI3 handle whose luminance property has two tokens. -/
def fTwoTok : CmsIT8 :=
  { sheetType := "CTI3",
    strProps := [("COLOR_REP", "RGB_XYZ"), ("NORMALIZED_TO_Y_100", "YES"),
                 ("LUMINANCE_XYZ_CDM2", "1.0 2.0")],
    dblProps := [("NUMBER_OF_SETS", 0)],
    dataFormat := [],
    data := fun _ => 0 }

/-- Little-endian digit value in `ℚ` with an arbitrary rational base (the
general-base counterpart of `Nat.ofDigits`, needed at base `1/10`). -/
def ofDigitsQ (b : ℚ) : List Nat → ℚ
  | [] => 0
  | d :: L => (d : ℚ) + b * ofDigitsQ b L


/-- Running maximum with the source's strict-`>` update, seeded like the
saver's `normalize` accumulator. -/
def foldMaxQ (init : ℚ) (L : List ℚ) : ℚ :=
  L.foldl (fun m y => if y > m then y else m) init

/-- Indices of the white-reference samples: RGB within tolerance `0.01` of
`(1,1,1)` per channel. -/
def whiteIdxL (rgbs : List CdColorRGB) : List Nat :=
  (List.range rgbs.length).filter (fun i => cd_it8_color_match (rgbs.getD i ⟨0, 0, 0⟩) 1 1 1)

/-- Componentwise sum of the XYZ of the white-reference samples. -/
def cdWhiteSumL (rgbs : List CdColorRGB) (xyzs : List CdColorXYZ) : CdColorXYZ :=
  ⟨((whiteIdxL rgbs).map (fun i => (xyzs.getD i ⟨0, 0, 0⟩).X)).sum,
   ((whiteIdxL rgbs).map (fun i => (xyzs.getD i ⟨0, 0, 0⟩).Y)).sum,
   ((whiteIdxL rgbs).map (fun i => (xyzs.getD i ⟨0, 0, 0⟩).Z)).sum⟩

/-- The saver's `normalize` accumulator: running maximum (seeded at `0`) of
the white-reference Y values. -/
def cdMaxWhiteYL (rgbs : List CdColorRGB) (xyzs : List CdColorXYZ) : ℚ :=
  foldMaxQ 0 ((whiteIdxL rgbs).map (fun i => (xyzs.getD i ⟨0, 0, 0⟩).Y))

/-- White-reference indices of a document. -/
def whiteRefs (it8 : CdIt8) : List Nat := whiteIdxL it8.array_rgb

/-- Componentwise average of the XYZ of all white references of a document. -/
def cdWhiteAvg (it8 : CdIt8) : CdColorXYZ :=
  ⟨(cdWhiteSumL it8.array_rgb it8.array_xyz).X / ((whiteRefs it8).length : ℚ),
   (cdWhiteSumL it8.array_rgb it8.array_xyz).Y / ((whiteRefs it8).length : ℚ),
   (cdWhiteSumL it8.array_rgb it8.array_xyz).Z / ((whiteRefs it8).length : ℚ)⟩

/-- The largest white-reference Y of a document (as the saver computes it). -/
def cdMaxWhiteY (it8 : CdIt8) : ℚ := cdMaxWhiteYL it8.array_rgb it8.array_xyz

/-- The value `cd_it8_save_ti1_ti3` writes at column `c` of row `i`. -/
def cdRowVal (it8 : CdIt8) (normalize : ℚ) (i : Nat) : Nat → ℚ
  | 0 => (i : ℚ) + 1
  | 1 => (it8.array_rgb.getD i ⟨0, 0, 0⟩).R
  | 2 => (it8.array_rgb.getD i ⟨0, 0, 0⟩).G
  | 3 => (it8.array_rgb.getD i ⟨0, 0, 0⟩).B
  | 4 => if it8.normalized then (it8.array_xyz.getD i ⟨0, 0, 0⟩).X * normalize
         else (it8.array_xyz.getD i ⟨0, 0, 0⟩).X
  | 5 => if it8.normalized then (it8.array_xyz.getD i ⟨0, 0, 0⟩).Y * normalize
         else (it8.array_xyz.getD i ⟨0, 0, 0⟩).Y
  | 6 => if it8.normalized then (it8.array_xyz.getD i ⟨0, 0, 0⟩).Z * normalize
         else (it8.array_xyz.getD i ⟨0, 0, 0⟩).Z
  | _ => 0

/-! ## Lookup lemmas for the tokenizer model -/

@[simp] theorem getStr_setStr_same (f : CmsIT8) (k v : String) :
    cmsIT8GetProperty (cmsIT8SetPropertyStr f k v) k = some v := by
  simp [cmsIT8GetProperty, cmsIT8SetPropertyStr, List.find?_cons_of_pos]

@[simp] theorem getStr_setStr_ne (f : CmsIT8) {k k' : String} (v : String) (h : k' ≠ k) :
    cmsIT8GetProperty (cmsIT8SetPropertyStr f k v) k' = cmsIT8GetProperty f k' := by
  simp [cmsIT8GetProperty, cmsIT8SetPropertyStr]
  rw [List.find?_cons_of_neg]
  simp [Ne.symm h]

@[simp] theorem getStr_setStrOpt_ne (f : CmsIT8) {k k' : String} (o : Option String) (h : k' ≠ k) :
    cmsIT8GetProperty (cmsIT8SetPropertyStrOpt f k o) k' = cmsIT8GetProperty f k' := by
  cases o with
  | none => rfl
  | some v => exact getStr_setStr_ne f v h

@[simp] theorem getStr_setDbl (f : CmsIT8) (k v k') :
    cmsIT8GetProperty (cmsIT8SetPropertyDbl f k v) k' = cmsIT8GetProperty f k' := rfl

@[simp] theorem getStr_setFormat (f : CmsIT8) (i s k') :
    cmsIT8GetProperty (cmsIT8SetDataFormat f i s) k' = cmsIT8GetProperty f k' := rfl

@[simp] theorem getStr_setCell (f : CmsIT8) (r c v k') :
    cmsIT8GetProperty (cmsIT8SetDataRowColDbl f r c v) k' = cmsIT8GetProperty f k' := rfl

@[simp] theorem getStr_setSheet (f : CmsIT8) (s k') :
    cmsIT8GetProperty (cmsIT8SetSheetType f s) k' = cmsIT8GetProperty f k' := rfl

@[simp] theorem getDbl_setDbl_same (f : CmsIT8) (k : String) (v : ℚ) :
    cmsIT8GetPropertyDbl (cmsIT8SetPropertyDbl f k v) k = v := by
  simp [cmsIT8GetPropertyDbl, cmsIT8SetPropertyDbl, List.find?_cons_of_pos]

@[simp] theorem getDbl_setDbl_ne (f : CmsIT8) {k k' : String} (v : ℚ) (h : k' ≠ k) :
    cmsIT8GetPropertyDbl (cmsIT8SetPropertyDbl f k v) k' = cmsIT8GetPropertyDbl f k' := by
  simp [cmsIT8GetPropertyDbl, cmsIT8SetPropertyDbl]
  rw [List.find?_cons_of_neg]
  simp [Ne.symm h]

@[simp] theorem getDbl_setStr (f : CmsIT8) (k v k') :
    cmsIT8GetPropertyDbl (cmsIT8SetPropertyStr f k v) k' = cmsIT8GetPropertyDbl f k' := rfl

@[simp] theorem getDbl_setStrOpt (f : CmsIT8) (k : String) (o : Option String) (k') :
    cmsIT8GetPropertyDbl (cmsIT8SetPropertyStrOpt f k o) k' = cmsIT8GetPropertyDbl f k' := by
  cases o <;> rfl

@[simp] theorem getDbl_setFormat (f : CmsIT8) (i s k') :
    cmsIT8GetPropertyDbl (cmsIT8SetDataFormat f i s) k' = cmsIT8GetPropertyDbl f k' := rfl

@[simp] theorem getDbl_setCell (f : CmsIT8) (r c v k') :
    cmsIT8GetPropertyDbl (cmsIT8SetDataRowColDbl f r c v) k' = cmsIT8GetPropertyDbl f k' := rfl

@[simp] theorem getDbl_setSheet (f : CmsIT8) (s k') :
    cmsIT8GetPropertyDbl (cmsIT8SetSheetType f s) k' = cmsIT8GetPropertyDbl f k' := rfl

@[simp] theorem sheet_setStr (f : CmsIT8) (k v) :
    (cmsIT8SetPropertyStr f k v).sheetType = f.sheetType := rfl

@[simp] theorem sheet_setStrOpt (f : CmsIT8) (k : String) (o : Option String) :
    (cmsIT8SetPropertyStrOpt f k o).sheetType = f.sheetType := by cases o <;> rfl

@[simp] theorem sheet_setDbl (f : CmsIT8) (k v) :
    (cmsIT8SetPropertyDbl f k v).sheetType = f.sheetType := rfl

@[simp] theorem sheet_setFormat (f : CmsIT8) (i s) :
    (cmsIT8SetDataFormat f i s).sheetType = f.sheetType := rfl

@[simp] theorem sheet_setCell (f : CmsIT8) (r c v) :
    (cmsIT8SetDataRowColDbl f r c v).sheetType = f.sheetType := rfl

@[simp] theorem sheet_setSheet (f : CmsIT8) (s) :
    (cmsIT8SetSheetType f s).sheetType = s := rfl

@[simp] theorem data_setStr (f : CmsIT8) (k v p) :
    (cmsIT8SetPropertyStr f k v).data p = f.data p := rfl

@[simp] theorem data_setStrOpt (f : CmsIT8) (k : String) (o : Option String) (p) :
    (cmsIT8SetPropertyStrOpt f k o).data p = f.data p := by cases o <;> rfl

@[simp] theorem data_setDbl (f : CmsIT8) (k v p) :
    (cmsIT8SetPropertyDbl f k v).data p = f.data p := rfl

@[simp] theorem data_setFormat (f : CmsIT8) (i s p) :
    (cmsIT8SetDataFormat f i s).data p = f.data p := rfl

@[simp] theorem data_setSheet (f : CmsIT8) (s p) :
    (cmsIT8SetSheetType f s).data p = f.data p := rfl

@[simp] theorem data_setCell_same (f : CmsIT8) (r c v) :
    (cmsIT8SetDataRowColDbl f r c v).data (r, c) = v := by
  simp [cmsIT8SetDataRowColDbl]

@[simp] theorem data_setCell_ne (f : CmsIT8) {p : Nat × Nat} {r c : Nat} (v : ℚ) (h : p ≠ (r, c)) :
    (cmsIT8SetDataRowColDbl f r c v).data p = f.data p := by
  simp [cmsIT8SetDataRowColDbl, h]

/-! ## `g_strsplit` lemmas -/

theorem splitSpAux_sp_free (A : List Char) (h : ∀ c ∈ A, c ≠ ' ') :
    ∀ cur, splitSpAux A cur = [cur.reverse ++ A] := by
  induction A with
  | nil => intro cur; simp [splitSpAux]
  | cons a A ih =>
    intro cur
    have ha : a ≠ ' ' := h a (by simp)
    simp only [splitSpAux, if_neg ha]
    rw [ih (fun c hc => h c (by simp [hc]))]
    simp

theorem splitSpAux_append (A : List Char) (h : ∀ c ∈ A, c ≠ ' ') (rest : List Char) :
    ∀ cur, splitSpAux (A ++ ' ' :: rest) cur = (cur.reverse ++ A) :: splitSpAux rest [] := by
  induction A with
  | nil => intro cur; simp [splitSpAux]
  | cons a A ih =>
    intro cur
    have ha : a ≠ ' ' := h a (by simp)
    simp only [List.cons_append, splitSpAux, if_neg ha, List.append_eq]
    rw [ih (fun c hc => h c (by simp [hc]))]
    simp

/-- Splitting three space-free tokens joined by single spaces. -/
theorem g_strsplit_three (A B C : List Char)
    (hA : ∀ c ∈ A, c ≠ ' ') (hB : ∀ c ∈ B, c ≠ ' ') (hC : ∀ c ∈ C, c ≠ ' ')
    (hAne : A ≠ []) :
    g_strsplit (some (String.mk (A ++ ' ' :: (B ++ ' ' :: C)))) = [A, B, C] := by
  have hdata : (String.mk (A ++ ' ' :: (B ++ ' ' :: C))).data = A ++ ' ' :: (B ++ ' ' :: C) := rfl
  simp only [g_strsplit, hdata]
  rw [if_neg (by simp [hAne])]
  rw [splitSpAux_append A hA, splitSpAux_append B hB, splitSpAux_sp_free C hC]
  simp

/-! ## Digit arithmetic: the roundtrip `atofL (fmtF q) = round6 q` -/

theorem natToDigitsAux_eq (fuel : Nat) : ∀ n : Nat, n ≤ fuel →
    natToDigitsAux fuel n = Nat.digits 10 n := by
  induction fuel with
  | zero =>
    intro n hn
    interval_cases n
    simp [natToDigitsAux]
  | succ fuel ih =>
    intro n hn
    cases n with
    | zero => simp [natToDigitsAux]
    | succ n =>
      rw [natToDigitsAux, Nat.digits_def' (by norm_num : (1 : ℕ) < 10) (Nat.succ_pos n)]
      have hdiv : (n + 1) / 10 < n + 1 := Nat.div_lt_self (Nat.succ_pos n) (by norm_num)
      rw [ih ((n + 1) / 10) (by omega)]

theorem natDigits_eq (n : Nat) : natDigits n = Nat.digits 10 n :=
  natToDigitsAux_eq n n le_rfl

theorem natDigits_lt (n : Nat) : ∀ d ∈ natDigits n, d < 10 := by
  intro d hd
  rw [natDigits_eq] at hd
  exact Nat.digits_lt_base (by norm_num) hd

theorem digitVal_digitChar {d : Nat} (h : d < 10) :
    digitVal (Nat.digitChar d) = some d := by
  interval_cases d <;> decide

theorem digitChar_ne_sp {d : Nat} (h : d < 10) : Nat.digitChar d ≠ ' ' := by
  interval_cases d <;> decide

theorem digitChar_ne_minus {d : Nat} (h : d < 10) : Nat.digitChar d ≠ '-' := by
  interval_cases d <;> decide

theorem digitChar_ne_plus {d : Nat} (h : d < 10) : Nat.digitChar d ≠ '+' := by
  interval_cases d <;> decide

theorem msbDigits_lt (n : Nat) : ∀ d ∈ msbDigits n, d < 10 := by
  intro d hd
  by_cases h : n = 0
  · subst h
    simp [msbDigits] at hd
    omega
  · simp only [msbDigits, if_neg h, List.mem_reverse] at hd
    exact natDigits_lt n d hd

theorem msbDigits_ne_nil (n : Nat) : msbDigits n ≠ [] := by
  by_cases h : n = 0
  · subst h; simp [msbDigits]
  · simp only [msbDigits, if_neg h, ne_eq, List.reverse_eq_nil_iff]
    rw [natDigits_eq]
    simpa [Nat.digits_eq_nil_iff_eq_zero] using h

theorem parseIntAux_digits (ds : List Nat) (hds : ∀ d ∈ ds, d < 10) {c : Char}
    (hc : digitVal c = none) (r : List Char) :
    ∀ acc, parseIntAux (ds.map Nat.digitChar ++ c :: r) acc =
      (ds.foldl (fun a d => a * 10 + d) acc, c :: r) := by
  induction ds with
  | nil =>
    intro acc
    simp [parseIntAux, hc]
  | cons d ds ih =>
    intro acc
    have hd : d < 10 := hds d (by simp)
    simp only [List.map_cons, List.cons_append, parseIntAux, digitVal_digitChar hd,
      List.foldl_cons]
    exact ih (fun x hx => hds x (by simp [hx])) (acc * 10 + d)

theorem foldl_msb (L : List Nat) : ∀ acc : Nat,
    L.foldl (fun a d => a * 10 + d) acc = acc * 10 ^ L.length + Nat.ofDigits 10 L.reverse := by
  induction L with
  | nil =>
    intro acc
    simp [Nat.ofDigits_nil]
  | cons d L ih =>
    intro acc
    simp only [List.foldl_cons, List.reverse_cons, ih, Nat.ofDigits_append,
      Nat.ofDigits_singleton, List.length_reverse, List.length_cons]
    ring

theorem foldl_msbDigits (n : Nat) :
    (msbDigits n).foldl (fun a d => a * 10 + d) 0 = n := by
  by_cases h : n = 0
  · subst h; decide
  · simp only [msbDigits, if_neg h]
    rw [foldl_msb]
    simp [natDigits_eq, Nat.ofDigits_digits]

theorem ofDigitsQ_nil (b : ℚ) : ofDigitsQ b [] = 0 := rfl

theorem ofDigitsQ_cons (b : ℚ) (d : Nat) (L : List Nat) :
    ofDigitsQ b (d :: L) = (d : ℚ) + b * ofDigitsQ b L := rfl

theorem ofDigitsQ_append (b : ℚ) (L1 L2 : List Nat) :
    ofDigitsQ b (L1 ++ L2) = ofDigitsQ b L1 + b ^ L1.length * ofDigitsQ b L2 := by
  induction L1 with
  | nil => simp [ofDigitsQ_nil]
  | cons d L1 ih =>
    rw [List.cons_append, ofDigitsQ_cons, ofDigitsQ_cons, ih, List.length_cons]
    ring

theorem ofDigitsQ_replicate_zero (b : ℚ) (k : Nat) :
    ofDigitsQ b (List.replicate k 0) = 0 := by
  induction k with
  | zero => rfl
  | succ k ih => rw [List.replicate_succ, ofDigitsQ_cons, ih]; simp

theorem parseFracAux_digits (ds : List Nat) (hds : ∀ d ∈ ds, d < 10) :
    ∀ acc w : ℚ, parseFracAux (ds.map Nat.digitChar) acc w =
      acc + w * ofDigitsQ (1 / 10) ds := by
  induction ds with
  | nil =>
    intro acc w
    simp only [List.map_nil, parseFracAux, ofDigitsQ_nil, mul_zero, add_zero]
  | cons d ds ih =>
    intro acc w
    have hd : d < 10 := hds d (by simp)
    simp only [List.map_cons, parseFracAux, digitVal_digitChar hd]
    rw [ih (fun x hx => hds x (by simp [hx])), ofDigitsQ_cons]
    ring

theorem ofDigitsQ_inv_reverse (L : List Nat) :
    ofDigitsQ (1 / 10) L.reverse * 10 ^ L.length = 10 * ((Nat.ofDigits 10 L : ℕ) : ℚ) := by
  induction L with
  | nil => simp [ofDigitsQ_nil]
  | cons d L ih =>
    rw [List.reverse_cons, ofDigitsQ_append, Nat.ofDigits_cons]
    rw [List.length_reverse, List.length_cons]
    have hpow : (1 / 10 : ℚ) ^ L.length * 10 ^ L.length = 1 := by
      rw [← mul_pow]; norm_num
    have hsingle : ofDigitsQ (1 / 10) [d] = (d : ℚ) := by
      rw [ofDigitsQ_cons, ofDigitsQ_nil]; ring
    rw [hsingle, Nat.cast_add, Nat.cast_mul, Nat.cast_ofNat]
    calc (ofDigitsQ (1 / 10) L.reverse + (1 / 10) ^ L.length * (d : ℚ)) * 10 ^ (L.length + 1)
        = (ofDigitsQ (1 / 10) L.reverse * 10 ^ L.length) * 10 +
            ((1 / 10 : ℚ) ^ L.length * 10 ^ L.length) * ((d : ℚ) * 10) := by ring
      _ = 10 * ((d : ℚ) + 10 * ((Nat.ofDigits 10 L : ℕ) : ℚ)) := by rw [ih, hpow]; ring

theorem digits_length_le : ∀ k n : Nat, n < 10 ^ k → (Nat.digits 10 n).length ≤ k := by
  intro k
  induction k with
  | zero =>
    intro n hn
    interval_cases n
    simp
  | succ k ih =>
    intro n hn
    cases n with
    | zero => simp
    | succ n =>
      rw [Nat.digits_def' (by norm_num : (1 : ℕ) < 10) (Nat.succ_pos n)]
      have : (n + 1) / 10 < 10 ^ k := by
        have h10 : (0 : ℕ) < 10 := by norm_num
        rw [Nat.div_lt_iff_lt_mul h10]
        calc n + 1 < 10 ^ (k + 1) := hn
          _ = 10 ^ k * 10 := by ring
      simpa using ih ((n + 1) / 10) this

theorem parseFrac_fmtFrac6 {fp : Nat} (h : fp < 1000000) :
    parseFracAux (fmtFrac6 fp) 0 (1 / 10) = (fp : ℚ) / 1000000 := by
  have hlen : (natDigits fp).length ≤ 6 := by
    rw [natDigits_eq]
    exact digits_length_le 6 fp h
  have hall : ∀ d ∈ List.replicate (6 - ((natDigits fp).reverse).length) 0 ++
      (natDigits fp).reverse, d < 10 := by
    intro d hd
    rcases List.mem_append.mp hd with hd | hd
    · have := List.eq_of_mem_replicate hd
      omega
    · exact natDigits_lt fp d (List.mem_reverse.mp hd)
  rw [fmtFrac6, parseFracAux_digits _ hall, ofDigitsQ_append, ofDigitsQ_replicate_zero]
  rw [List.length_replicate, List.length_reverse]
  have hofd : Nat.ofDigits 10 (natDigits fp) = fp := by
    rw [natDigits_eq]; exact Nat.ofDigits_digits 10 fp
  have hkey := ofDigitsQ_inv_reverse (natDigits fp)
  rw [hofd] at hkey
  set L := (natDigits fp).length with hL
  set k := 6 - L with hkdef
  have h6 : (1000000 : ℚ) = 10 ^ k * 10 ^ L := by
    rw [← pow_add, hkdef]
    rw [Nat.sub_add_cancel hlen]
    norm_num
  rw [eq_div_iff (by norm_num : (1000000 : ℚ) ≠ 0), h6]
  calc ((0 : ℚ) + 1 / 10 * (0 + (1 / 10) ^ k * ofDigitsQ (1 / 10) (natDigits fp).reverse)) *
        (10 ^ k * 10 ^ L)
      = ((1 / 10 : ℚ) ^ k * 10 ^ k) *
          (ofDigitsQ (1 / 10) (natDigits fp).reverse * 10 ^ L) * (1 / 10) := by ring
    _ = ((1 / 10 : ℚ) ^ k * 10 ^ k) * (10 * (fp : ℚ)) * (1 / 10) := by rw [hkey]
    _ = ((1 / 10 : ℚ) * 10) ^ k * (fp : ℚ) := by rw [mul_pow]; ring
    _ = (fp : ℚ) := by norm_num

theorem atofL_body (m : Nat) :
    atofL (fmtNat (m / 1000000) ++ '.' :: fmtFrac6 (m % 1000000)) = (m : ℚ) / 1000000 := by
  obtain ⟨d, ds, hmsb⟩ : ∃ d ds, msbDigits (m / 1000000) = d :: ds := by
    cases h : msbDigits (m / 1000000) with
    | nil => exact absurd h (msbDigits_ne_nil _)
    | cons d ds => exact ⟨d, ds, rfl⟩
  have hall : ∀ x ∈ d :: ds, x < 10 := by
    rw [← hmsb]; exact msbDigits_lt _
  have hd10 : d < 10 := hall d (by simp)
  have hint := parseIntAux_digits (d :: ds) hall (c := '.') (by decide)
      (fmtFrac6 (m % 1000000)) 0
  have hfold : (d :: ds).foldl (fun a x => a * 10 + x) 0 = m / 1000000 := by
    rw [← hmsb]; exact foldl_msbDigits _
  rw [hfold] at hint
  have hmod : m % 1000000 < 1000000 := Nat.mod_lt m (by norm_num)
  have hfrac := parseFrac_fmtFrac6 hmod
  rw [fmtNat, hmsb, List.map_cons, List.cons_append, atofL]
  simp only [List.dropWhile_cons, decide_eq_false (digitChar_ne_sp hd10), Bool.false_eq_true,
    if_false, List.headD_cons]
  rw [if_neg (not_or.mpr ⟨digitChar_ne_minus hd10, digitChar_ne_plus hd10⟩)]
  rw [if_neg (by simpa using digitChar_ne_minus hd10)]
  rw [show Nat.digitChar d :: (List.map Nat.digitChar ds ++ '.' :: fmtFrac6 (m % 1000000))
      = List.map Nat.digitChar (d :: ds) ++ '.' :: fmtFrac6 (m % 1000000) by simp]
  rw [hint]
  simp only [hfrac]
  have hdm : 1000000 * ((m / 1000000 : Nat) : ℚ) + ((m % 1000000 : Nat) : ℚ) = (m : ℚ) := by
    exact_mod_cast congrArg (Nat.cast : Nat → ℚ) (Nat.div_add_mod m 1000000)
  field_simp
  linarith [hdm]

theorem atofL_neg_body (m : Nat) :
    atofL ('-' :: (fmtNat (m / 1000000) ++ '.' :: fmtFrac6 (m % 1000000))) =
      -((m : ℚ) / 1000000) := by
  obtain ⟨d, ds, hmsb⟩ : ∃ d ds, msbDigits (m / 1000000) = d :: ds := by
    cases h : msbDigits (m / 1000000) with
    | nil => exact absurd h (msbDigits_ne_nil _)
    | cons d ds => exact ⟨d, ds, rfl⟩
  have hall : ∀ x ∈ d :: ds, x < 10 := by
    rw [← hmsb]; exact msbDigits_lt _
  have hint := parseIntAux_digits (d :: ds) hall (c := '.') (by decide)
      (fmtFrac6 (m % 1000000)) 0
  have hfold : (d :: ds).foldl (fun a x => a * 10 + x) 0 = m / 1000000 := by
    rw [← hmsb]; exact foldl_msbDigits _
  rw [hfold] at hint
  have hmod : m % 1000000 < 1000000 := Nat.mod_lt m (by norm_num)
  have hfrac := parseFrac_fmtFrac6 hmod
  rw [fmtNat, hmsb, List.map_cons, List.cons_append, atofL]
  simp only [List.dropWhile_cons, decide_eq_false (show ¬('-' = ' ') by decide),
    Bool.false_eq_true, if_false, List.headD_cons]
  simp only [true_or, if_true, decide_True, List.tail_cons]
  rw [show Nat.digitChar d :: (List.map Nat.digitChar ds ++ '.' :: fmtFrac6 (m % 1000000))
      = List.map Nat.digitChar (d :: ds) ++ '.' :: fmtFrac6 (m % 1000000) by simp]
  rw [hint]
  simp only [hfrac]
  have hdm : 1000000 * ((m / 1000000 : Nat) : ℚ) + ((m % 1000000 : Nat) : ℚ) = (m : ℚ) := by
    exact_mod_cast congrArg (Nat.cast : Nat → ℚ) (Nat.div_add_mod m 1000000)
  field_simp
  linarith [hdm]

/-- The serialization roundtrip of `printf "%f"` followed by `atof`: exactly
the value rounded to six decimal places survives. -/
theorem atofL_fmtF (q : ℚ) : atofL (fmtF q) = round6 q := by
  by_cases hq : q < 0
  · simp only [fmtF, round6, if_pos hq]
    rw [List.singleton_append, List.cons_append]
    rw [atofL_neg_body]
    ring
  · simp only [fmtF, round6, if_neg hq]
    rw [List.nil_append]
    rw [atofL_body]
    ring

theorem fmtNat_sp_free (n : Nat) : ∀ c ∈ fmtNat n, c ≠ ' ' := by
  intro c hc
  rw [fmtNat] at hc
  obtain ⟨d, hd, rfl⟩ := List.mem_map.mp hc
  exact digitChar_ne_sp (msbDigits_lt n d hd)

theorem fmtFrac6_sp_free (fp : Nat) : ∀ c ∈ fmtFrac6 fp, c ≠ ' ' := by
  intro c hc
  rw [fmtFrac6] at hc
  obtain ⟨d, hd, rfl⟩ := List.mem_map.mp hc
  rcases List.mem_append.mp hd with hd | hd
  · have := List.eq_of_mem_replicate hd
    subst this
    decide
  · exact digitChar_ne_sp (natDigits_lt fp d (List.mem_reverse.mp hd))

theorem fmtF_sp_free (q : ℚ) : ∀ c ∈ fmtF q, c ≠ ' ' := by
  intro c hc
  rw [fmtF] at hc
  simp only [List.mem_append, List.mem_cons] at hc
  rcases hc with (hc | hc) | hc | hc
  · by_cases hq : q < 0
    · rw [if_pos hq] at hc
      simp at hc
      subst hc
      decide
    · rw [if_neg hq] at hc
      simp at hc
  · exact fmtNat_sp_free _ c hc
  · subst hc; decide
  · exact fmtFrac6_sp_free _ c hc

theorem fmtF_ne_nil (q : ℚ) : fmtF q ≠ [] := by
  rw [fmtF]
  simp only [ne_eq, List.append_eq_nil, List.append_assoc]
  rintro ⟨-, -, h⟩
  exact absurd h (by simp)

/-- Parsing the saver's `"%f %f %f"` luminance string recovers the triple at
serialization precision. -/
theorem parse_lumiString (x y z : ℚ) :
    cd_it8_parse_luminance (some (lumiString x y z)) =
      some ⟨round6 x, round6 y, round6 z⟩ := by
  rw [cd_it8_parse_luminance, lumiString]
  rw [g_strsplit_three (fmtF x) (fmtF y) (fmtF z) (fmtF_sp_free x) (fmtF_sp_free y)
    (fmtF_sp_free z) (fmtF_ne_nil x)]
  simp only [List.length_cons, List.length_nil]
  rw [if_neg (by norm_num)]
  simp only [List.getD, List.get?_cons_zero, List.get?_cons_succ, Option.getD_some]
  rw [atofL_fmtF, atofL_fmtF, atofL_fmtF]

/-! ## White-reference bookkeeping (claim-side definitions and the scan) -/

theorem white_scan_eq (rgbs : List CdColorRGB) (xyzs : List CdColorXYZ) :
    cd_it8_white_scan rgbs xyzs =
      ((whiteIdxL rgbs).length, cdWhiteSumL rgbs xyzs, cdMaxWhiteYL rgbs xyzs) := by
  rw [cd_it8_white_scan, cdWhiteSumL, cdMaxWhiteYL, whiteIdxL]
  generalize rgbs.length = n
  induction n with
  | zero => rfl
  | succ n ih =>
    rw [List.range_succ, List.foldl_append, List.filter_append, ih]
    rw [List.foldl_cons, List.foldl_nil]
    by_cases hp : cd_it8_color_match (rgbs.getD n ⟨0, 0, 0⟩) 1 1 1
    · simp only [hp, if_true, List.filter_cons, List.filter_nil]
      simp only [List.map_append, List.sum_append, List.length_append, List.map_cons,
        List.map_nil, List.sum_cons, List.sum_nil, List.length_cons, List.length_nil,
        foldMaxQ, List.foldl_append, List.foldl_cons, List.foldl_nil]
      simp [add_zero]
    · simp only [hp, if_false, Bool.false_eq_true, List.filter_cons, List.filter_nil]
      simp [foldMaxQ]

theorem le_foldMaxQ (L : List ℚ) : ∀ init, init ≤ foldMaxQ init L := by
  induction L with
  | nil => intro init; simp [foldMaxQ]
  | cons y L ih =>
    intro init
    rw [foldMaxQ, List.foldl_cons]
    by_cases h : y > init
    · rw [if_pos h]
      exact le_of_lt (lt_of_lt_of_le h (ih y))
    · rw [if_neg h]
      exact ih init

theorem mem_le_foldMaxQ (L : List ℚ) : ∀ init, ∀ y ∈ L, y ≤ foldMaxQ init L := by
  induction L with
  | nil => intro init y hy; simp at hy
  | cons z L ih =>
    intro init y hy
    rw [foldMaxQ, List.foldl_cons]
    rcases List.mem_cons.mp hy with rfl | hy
    · by_cases h : y > init
      · rw [if_pos h]; exact le_foldMaxQ L y
      · rw [if_neg h]
        exact le_trans (not_lt.mp h) (le_foldMaxQ L init)
    · by_cases h : z > init
      · rw [if_pos h]; exact ih z y hy
      · rw [if_neg h]; exact ih init y hy

theorem foldMaxQ_mem_or (L : List ℚ) : ∀ init, foldMaxQ init L = init ∨ foldMaxQ init L ∈ L := by
  induction L with
  | nil => intro init; left; rfl
  | cons z L ih =>
    intro init
    rw [foldMaxQ, List.foldl_cons]
    by_cases h : z > init
    · rw [if_pos h]
      rcases ih z with h' | h'
      · right; rw [foldMaxQ] at h'; simp [h']
      · right; rw [foldMaxQ] at h'; simp [h']
    · rw [if_neg h]
      rcases ih init with h' | h'
      · left; rw [foldMaxQ] at h'; exact h'
      · right; rw [foldMaxQ] at h'; simp [h']

/-- For a nonempty list of nonnegative values, the `0`-seeded running maximum
is a member and an upper bound: it is genuinely the largest element. -/
theorem foldMaxQ_is_max (L : List ℚ) (hne : L ≠ []) (hnn : ∀ y ∈ L, 0 ≤ y) :
    foldMaxQ 0 L ∈ L ∧ ∀ y ∈ L, y ≤ foldMaxQ 0 L := by
  refine ⟨?_, mem_le_foldMaxQ L 0⟩
  rcases foldMaxQ_mem_or L 0 with h | h
  · match L, hne with
    | z :: L, _ =>
      have hz : z ≤ foldMaxQ 0 (z :: L) := mem_le_foldMaxQ _ 0 z (by simp)
      rw [h] at hz
      have : z = 0 := le_antisymm hz (hnn z (by simp))
      rw [h, ← this]
      simp
  · exact h

/-! ## The saver's data table -/

@[simp] theorem write_row_strProps (it8 : CdIt8) (nz : ℚ) (f : CmsIT8) (i : Nat) :
    (cd_it8_write_row it8 nz f i).strProps = f.strProps := by
  by_cases h : it8.normalized <;>
    simp [cd_it8_write_row, cmsIT8SetDataRowColDbl, h]

@[simp] theorem write_row_dblProps (it8 : CdIt8) (nz : ℚ) (f : CmsIT8) (i : Nat) :
    (cd_it8_write_row it8 nz f i).dblProps = f.dblProps := by
  by_cases h : it8.normalized <;>
    simp [cd_it8_write_row, cmsIT8SetDataRowColDbl, h]

@[simp] theorem write_row_sheet (it8 : CdIt8) (nz : ℚ) (f : CmsIT8) (i : Nat) :
    (cd_it8_write_row it8 nz f i).sheetType = f.sheetType := by
  by_cases h : it8.normalized <;>
    simp [cd_it8_write_row, cmsIT8SetDataRowColDbl, h]

theorem write_row_data_ne (it8 : CdIt8) (nz : ℚ) (f : CmsIT8) (i : Nat) {p : Nat × Nat}
    (h : p.1 ≠ i) : (cd_it8_write_row it8 nz f i).data p = f.data p := by
  have hp : ∀ c : Nat, ¬(p = (i, c)) := by
    intro c hc
    exact h (by rw [hc])
  by_cases hn : it8.normalized <;>
    simp [cd_it8_write_row, cmsIT8SetDataRowColDbl, hn, hp]

theorem write_row_data_hit (it8 : CdIt8) (nz : ℚ) (f : CmsIT8) (i : Nat) {c : Nat}
    (hc : c ≤ 6) : (cd_it8_write_row it8 nz f i).data (i, c) = cdRowVal it8 nz i c := by
  by_cases hn : it8.normalized <;>
    (interval_cases c <;>
      simp [cd_it8_write_row, cmsIT8SetDataRowColDbl, cdRowVal, hn, Prod.ext_iff])

@[simp] theorem writeRows_strProps (it8 : CdIt8) (nz : ℚ) (l : List Nat) :
    ∀ f : CmsIT8, (l.foldl (cd_it8_write_row it8 nz) f).strProps = f.strProps := by
  induction l with
  | nil => intro f; rfl
  | cons i l ih =>
    intro f
    rw [List.foldl_cons, ih, write_row_strProps]

@[simp] theorem writeRows_dblProps (it8 : CdIt8) (nz : ℚ) (l : List Nat) :
    ∀ f : CmsIT8, (l.foldl (cd_it8_write_row it8 nz) f).dblProps = f.dblProps := by
  induction l with
  | nil => intro f; rfl
  | cons i l ih =>
    intro f
    rw [List.foldl_cons, ih, write_row_dblProps]

@[simp] theorem writeRows_sheet (it8 : CdIt8) (nz : ℚ) (l : List Nat) :
    ∀ f : CmsIT8, (l.foldl (cd_it8_write_row it8 nz) f).sheetType = f.sheetType := by
  induction l with
  | nil => intro f; rfl
  | cons i l ih =>
    intro f
    rw [List.foldl_cons, ih, write_row_sheet]

@[simp] theorem getStr_writeRows (it8 : CdIt8) (nz : ℚ) (l : List Nat) (f : CmsIT8) (k : String) :
    cmsIT8GetProperty (l.foldl (cd_it8_write_row it8 nz) f) k = cmsIT8GetProperty f k := by
  rw [cmsIT8GetProperty, cmsIT8GetProperty, writeRows_strProps]

@[simp] theorem getDbl_writeRows (it8 : CdIt8) (nz : ℚ) (l : List Nat) (f : CmsIT8) (k : String) :
    cmsIT8GetPropertyDbl (l.foldl (cd_it8_write_row it8 nz) f) k = cmsIT8GetPropertyDbl f k := by
  rw [cmsIT8GetPropertyDbl, cmsIT8GetPropertyDbl, writeRows_dblProps]

theorem writeRows_data (it8 : CdIt8) (nz : ℚ) :
    ∀ (n : Nat) (f : CmsIT8) (i c : Nat), i < n → c ≤ 6 →
      ((List.range n).foldl (cd_it8_write_row it8 nz) f).data (i, c) = cdRowVal it8 nz i c := by
  intro n
  induction n with
  | zero => intro f i c hi; omega
  | succ n ih =>
    intro f i c hi hc
    rw [List.range_succ, List.foldl_append, List.foldl_cons, List.foldl_nil]
    by_cases h : i = n
    · subst h
      exact write_row_data_hit it8 nz _ i hc
    · rw [write_row_data_ne it8 nz _ n (by simpa using h)]
      exact ih f i c (by omega) hc

/-- Characterisation of a successful normalised ti1/ti3 save: the emitted
sheet type, properties and data cells.  `cd_it8_scan_ret it8 = true` is the
honest success condition: the scan loop clobbers the C return variable with
each sample's white-match result, so the save succeeds only when the last
sample itself matches white. -/
theorem save_norm_spec (it8 : CdIt8)
    (hkind : it8.kind = CdIt8Kind.ti1 ∨ it8.kind = CdIt8Kind.ti3)
    (hnorm : it8.normalized = true)
    (hw : whiteRefs it8 ≠ [])
    (hret : cd_it8_scan_ret it8 = true) :
    ∃ F, cd_it8_save it8 = Except.ok F ∧
      F.sheetType = (if it8.kind = CdIt8Kind.ti1 then "CTI1" else "CTI3") ∧
      cmsIT8GetProperty F "COLOR_REP" = some "RGB_XYZ" ∧
      cmsIT8GetProperty F "NORMALIZED_TO_Y_100" = some "YES" ∧
      cmsIT8GetProperty F "LUMINANCE_XYZ_CDM2" =
        some (lumiString (cdWhiteAvg it8).X (cdWhiteAvg it8).Y (cdWhiteAvg it8).Z) ∧
      cmsIT8GetPropertyDbl F "NUMBER_OF_SETS" = (it8.array_rgb.length : ℚ) ∧
      (∀ i < it8.array_rgb.length, ∀ c ≤ 6,
        F.data (i, c) = cdRowVal it8 (100 / cdMaxWhiteY it8) i c) := by
  have hcount : ((whiteIdxL it8.array_rgb).length = 0) = False := by
    simp only [eq_iff_iff, iff_false, ne_eq, List.length_eq_zero]
    exact hw
  rcases hkind with hk | hk <;>
    (simp only [cd_it8_save, cd_it8_save_ti1_ti3, white_scan_eq, hk, hnorm, hcount, hret,
        and_false, if_false, eq_self_iff_true, true_or, or_true, if_true, and_true, true_and]
     refine ⟨_, rfl, ?_, ?_, ?_, ?_, ?_, ?_⟩ <;>
       simp [cdWhiteAvg, cdMaxWhiteY, whiteRefs]) <;>
    (intro i hi c hc
     rw [writeRows_data it8 _ _ _ i c hi hc])

theorem map_range_getD {α β : Type} (l : List α) (d : α) (F : α → β) :
    (List.range l.length).map (fun i => F (l.getD i d)) = l.map F := by
  apply List.ext_getElem
  · simp
  · intro n h1 h2
    rw [List.getElem_map, List.getElem_map, List.getElem_range,
      List.getD_eq_getElem l d (by simpa using h2)]

/-- Unfolding of `cd_it8_load_ti1_ti3` on a handle whose properties mark it
as normalised with a well-formed luminance string. -/
theorem load_ti1_ti3_norm (d : CdIt8) (F : CmsIT8) (lx ly lz : ℚ)
    (hcolor : cmsIT8GetProperty F "COLOR_REP" = some "RGB_XYZ")
    (hnormp : cmsIT8GetProperty F "NORMALIZED_TO_Y_100" = some "YES")
    (hlum : cmsIT8GetProperty F "LUMINANCE_XYZ_CDM2" = some (lumiString lx ly lz)) :
    cd_it8_load_ti1_ti3 d F =
      ({ d with
          spectral := decide (cmsIT8GetProperty F "INSTRUMENT_TYPE_SPECTRAL" = some "YES"),
          instrument := cmsIT8GetProperty F "TARGET_INSTRUMENT",
          array_rgb := d.array_rgb ++
            (List.range (⌊cmsIT8GetPropertyDbl F "NUMBER_OF_SETS"⌋).toNat).map (fun i =>
              ⟨cmsIT8GetDataRowColDbl F i 1 / 100, cmsIT8GetDataRowColDbl F i 2 / 100,
               cmsIT8GetDataRowColDbl F i 3 / 100⟩),
          array_xyz := d.array_xyz ++
            (List.range (⌊cmsIT8GetPropertyDbl F "NUMBER_OF_SETS"⌋).toNat).map (fun i =>
              ⟨cmsIT8GetDataRowColDbl F i 4 / 100 * round6 lx,
               cmsIT8GetDataRowColDbl F i 5 / 100 * round6 ly,
               cmsIT8GetDataRowColDbl F i 6 / 100 * round6 lz⟩) }, none) := by
  rw [cd_it8_load_ti1_ti3]
  rw [if_neg (by rw [hcolor]; simp)]
  simp only [hcolor, hnormp, hlum, parse_lumiString, cd_it8_set_spectral, cd_it8_set_instrument]
  simp

/-- Master lemma for the normalised round trip: saving a normalised ti1/ti3
document and reloading the emitted handle into a fresh document succeeds,
leaves the fresh document's `normalized` flag `false` (the loader never sets
it), divides every RGB channel by `100`, and scales every XYZ channel by
`(100 / maxWhiteY) / 100 ·  round6(avgWhite)` componentwise. -/
theorem load_norm_spec (it8 : CdIt8)
    (hkind : it8.kind = CdIt8Kind.ti1 ∨ it8.kind = CdIt8Kind.ti3)
    (hnorm : it8.normalized = true)
    (hlen : it8.array_rgb.length = it8.array_xyz.length)
    (hw : whiteRefs it8 ≠ [])
    (hret : cd_it8_scan_ret it8 = true) :
    ∃ F, cd_it8_save it8 = Except.ok F ∧
      cmsIT8GetProperty F "NORMALIZED_TO_Y_100" = some "YES" ∧
      (cd_it8_load cd_it8_new (some F)).2 = none ∧
      (cd_it8_load cd_it8_new (some F)).1.normalized = false ∧
      (cd_it8_load cd_it8_new (some F)).1.array_rgb =
        it8.array_rgb.map (fun c => ⟨c.R / 100, c.G / 100, c.B / 100⟩) ∧
      (cd_it8_load cd_it8_new (some F)).1.array_xyz =
        it8.array_xyz.map (fun c =>
          ⟨c.X * (100 / cdMaxWhiteY it8) / 100 * round6 (cdWhiteAvg it8).X,
           c.Y * (100 / cdMaxWhiteY it8) / 100 * round6 (cdWhiteAvg it8).Y,
           c.Z * (100 / cdMaxWhiteY it8) / 100 * round6 (cdWhiteAvg it8).Z⟩) := by
  obtain ⟨F, hsave, hsheet, hcolor, hnormp, hlum, hsets, hdata⟩ :=
    save_norm_spec it8 hkind hnorm hw hret
  have hn : (⌊cmsIT8GetPropertyDbl F "NUMBER_OF_SETS"⌋).toNat = it8.array_rgb.length := by
    rw [hsets, Int.floor_natCast, Int.toNat_natCast]
  have hrgb : (List.range it8.array_rgb.length).map (fun i =>
      (⟨cmsIT8GetDataRowColDbl F i 1 / 100, cmsIT8GetDataRowColDbl F i 2 / 100,
        cmsIT8GetDataRowColDbl F i 3 / 100⟩ : CdColorRGB)) =
      it8.array_rgb.map (fun c => ⟨c.R / 100, c.G / 100, c.B / 100⟩) := by
    rw [← map_range_getD it8.array_rgb ⟨0, 0, 0⟩
      (fun c => (⟨c.R / 100, c.G / 100, c.B / 100⟩ : CdColorRGB))]
    apply List.map_congr_left
    intro i hi
    have hi' : i < it8.array_rgb.length := List.mem_range.mp hi
    rw [cmsIT8GetDataRowColDbl, cmsIT8GetDataRowColDbl, cmsIT8GetDataRowColDbl]
    rw [hdata i hi' 1 (by norm_num), hdata i hi' 2 (by norm_num), hdata i hi' 3 (by norm_num)]
    rfl
  have hxyz : (List.range it8.array_rgb.length).map (fun i =>
      (⟨cmsIT8GetDataRowColDbl F i 4 / 100 * round6 (cdWhiteAvg it8).X,
        cmsIT8GetDataRowColDbl F i 5 / 100 * round6 (cdWhiteAvg it8).Y,
        cmsIT8GetDataRowColDbl F i 6 / 100 * round6 (cdWhiteAvg it8).Z⟩ : CdColorXYZ)) =
      it8.array_xyz.map (fun c =>
        ⟨c.X * (100 / cdMaxWhiteY it8) / 100 * round6 (cdWhiteAvg it8).X,
         c.Y * (100 / cdMaxWhiteY it8) / 100 * round6 (cdWhiteAvg it8).Y,
         c.Z * (100 / cdMaxWhiteY it8) / 100 * round6 (cdWhiteAvg it8).Z⟩) := by
    rw [hlen, ← map_range_getD it8.array_xyz ⟨0, 0, 0⟩
      (fun c => (⟨c.X * (100 / cdMaxWhiteY it8) / 100 * round6 (cdWhiteAvg it8).X,
                 c.Y * (100 / cdMaxWhiteY it8) / 100 * round6 (cdWhiteAvg it8).Y,
                 c.Z * (100 / cdMaxWhiteY it8) / 100 * round6 (cdWhiteAvg it8).Z⟩ : CdColorXYZ))]
    apply List.map_congr_left
    intro i hi
    have hi' : i < it8.array_rgb.length := by
      rw [hlen]; exact List.mem_range.mp hi
    rw [cmsIT8GetDataRowColDbl, cmsIT8GetDataRowColDbl, cmsIT8GetDataRowColDbl]
    rw [hdata i hi' 4 (by norm_num), hdata i hi' 5 (by norm_num), hdata i hi' 6 (by norm_num)]
    rw [show cdRowVal it8 (100 / cdMaxWhiteY it8) i 4 =
        if it8.normalized = true then
          (it8.array_xyz.getD i ⟨0, 0, 0⟩).X * (100 / cdMaxWhiteY it8)
        else (it8.array_xyz.getD i ⟨0, 0, 0⟩).X from rfl]
    rw [show cdRowVal it8 (100 / cdMaxWhiteY it8) i 5 =
        if it8.normalized = true then
          (it8.array_xyz.getD i ⟨0, 0, 0⟩).Y * (100 / cdMaxWhiteY it8)
        else (it8.array_xyz.getD i ⟨0, 0, 0⟩).Y from rfl]
    rw [show cdRowVal it8 (100 / cdMaxWhiteY it8) i 6 =
        if it8.normalized = true then
          (it8.array_xyz.getD i ⟨0, 0, 0⟩).Z * (100 / cdMaxWhiteY it8)
        else (it8.array_xyz.getD i ⟨0, 0, 0⟩).Z from rfl]
    rw [if_pos hnorm, if_pos hnorm, if_pos hnorm]
  have hp11 : strHasPre "CTI1" "CTI1" = true := by decide
  have hp13 : strHasPre "CTI1" "CTI3" = false := by decide
  have hp33 : strHasPre "CTI3" "CTI3" = true := by decide
  refine ⟨F, hsave, hnormp, ?_⟩
  rcases hkind with hk | hk
  · have hsheet1 : F.sheetType = "CTI1" := by rw [hsheet, hk]; simp
    simp only [cd_it8_load, cmsIT8GetSheetType, hsheet1, hp11, if_true]
    rw [load_ti1_ti3_norm _ F (cdWhiteAvg it8).X (cdWhiteAvg it8).Y (cdWhiteAvg it8).Z
      hcolor hnormp hlum]
    simp [cd_it8_load_common, cd_it8_set_kind, cd_it8_set_originator, cd_it8_set_reference,
      cd_it8_new, hn, hrgb, hxyz]
  · have hsheet3 : F.sheetType = "CTI3" := by rw [hsheet, hk]; simp
    simp only [cd_it8_load, cmsIT8GetSheetType, hsheet3, hp13, hp33, if_true,
      Bool.false_eq_true, if_false]
    rw [load_ti1_ti3_norm _ F (cdWhiteAvg it8).X (cdWhiteAvg it8).Y (cdWhiteAvg it8).Z
      hcolor hnormp hlum]
    simp [cd_it8_load_common, cd_it8_set_kind, cd_it8_set_originator, cd_it8_set_reference,
      cd_it8_new, hn, hrgb, hxyz]

/-! ## Structural facts about the loader's failure and success paths -/

theorem load_ti1_ti3_cases (d : CdIt8) (f : CmsIT8) :
    (cd_it8_load_ti1_ti3 d f).2 = none ∨
      cd_it8_load_ti1_ti3 d f = (d, some CdIt8Error.InvalidColorRepresentation) ∨
      cd_it8_load_ti1_ti3 d f = (d, some CdIt8Error.InvalidLuminance) := by
  simp only [cd_it8_load_ti1_ti3]
  split
  · right; left; rfl
  · split
    · right; right; rfl
    · left; rfl

theorem load_ccmx_cases (d : CdIt8) (f : CmsIT8) :
    (cd_it8_load_ccmx d f).2 = none ∨
      cd_it8_load_ccmx d f = (d, some CdIt8Error.InvalidColorRepresentation) := by
  simp only [cd_it8_load_ccmx]
  split
  · right; rfl
  · left; rfl

theorem load_ti1_ti3_align (d : CdIt8) (f : CmsIT8)
    (hd : d.array_rgb.length = d.array_xyz.length) :
    (cd_it8_load_ti1_ti3 d f).1.array_rgb.length =
      (cd_it8_load_ti1_ti3 d f).1.array_xyz.length := by
  simp only [cd_it8_load_ti1_ti3]
  split
  · simpa using hd
  · split
    · simpa using hd
    · simpa [cd_it8_set_spectral, cd_it8_set_instrument] using hd

theorem load_ccmx_arrays (d : CdIt8) (f : CmsIT8) :
    (cd_it8_load_ccmx d f).1.array_rgb = d.array_rgb ∧
      (cd_it8_load_ccmx d f).1.array_xyz = d.array_xyz := by
  simp only [cd_it8_load_ccmx]
  split
  · exact ⟨rfl, rfl⟩
  · exact ⟨rfl, rfl⟩

theorem load_common_arrays (d : CdIt8) (f : CmsIT8) :
    (cd_it8_load_common d f).array_rgb = d.array_rgb ∧
      (cd_it8_load_common d f).array_xyz = d.array_xyz :=
  ⟨rfl, rfl⟩

/-- Reduction of the normalised-load dispatch: with `COLOR_REP` and
`NORMALIZED_TO_Y_100` in place, either the luminance string has a token
count other than three and the load fails with `InvalidLuminance` leaving
the document untouched, or it has exactly three tokens and the ti1/ti3
loader succeeds. -/
theorem load_ti1_ti3_lum_cases (d : CdIt8) (f : CmsIT8)
    (hcolor : cmsIT8GetProperty f "COLOR_REP" = some "RGB_XYZ")
    (hnormp : cmsIT8GetProperty f "NORMALIZED_TO_Y_100" = some "YES") :
    (cd_it8_load_ti1_ti3 d f = (d, some CdIt8Error.InvalidLuminance) ∧
      (g_strsplit (cmsIT8GetProperty f "LUMINANCE_XYZ_CDM2")).length ≠ 3) ∨
    ((cd_it8_load_ti1_ti3 d f).2 = none ∧
      (g_strsplit (cmsIT8GetProperty f "LUMINANCE_XYZ_CDM2")).length = 3) := by
  by_cases hsplit : (g_strsplit (cmsIT8GetProperty f "LUMINANCE_XYZ_CDM2")).length = 3
  · right
    refine ⟨?_, hsplit⟩
    simp only [cd_it8_load_ti1_ti3, hcolor, hnormp]
    rw [if_neg (by simp)]
    simp only [decide_True, if_true, cd_it8_parse_luminance]
    rw [if_neg (by simpa using hsplit)]
  · left
    refine ⟨?_, hsplit⟩
    simp only [cd_it8_load_ti1_ti3, hcolor, hnormp]
    rw [if_neg (by simp)]
    simp only [decide_True, if_true, cd_it8_parse_luminance]
    rw [if_pos (by simpa using hsplit)]

/-! ## Bridging lemmas for the claims -/

theorem color_match_iff (r : CdColorRGB) (x y z : ℚ) :
    cd_it8_color_match r x y z = true ↔
      |r.R - x| ≤ 1 / 100 ∧ |r.G - y| ≤ 1 / 100 ∧ |r.B - z| ≤ 1 / 100 := by
  rw [cd_it8_color_match]
  by_cases h1 : |r.R - x| > 1 / 100
  · rw [if_pos h1]
    constructor
    · intro h
      exact absurd h (by simp)
    · intro hc
      exact absurd hc.1 (not_le.mpr h1)
  · rw [if_neg h1]
    by_cases h2 : |r.G - y| > 1 / 100
    · rw [if_pos h2]
      constructor
      · intro h
        exact absurd h (by simp)
      · intro hc
        exact absurd hc.2.1 (not_le.mpr h2)
    · rw [if_neg h2]
      by_cases h3 : |r.B - z| > 1 / 100
      · rw [if_pos h3]
        constructor
        · intro h
          exact absurd h (by simp)
        · intro hc
          exact absurd hc.2.2 (not_le.mpr h3)
      · rw [if_neg h3]
        constructor
        · intro _
          exact ⟨not_lt.mp h1, not_lt.mp h2, not_lt.mp h3⟩
        · intro _
          rfl

theorem round6_natCast (n : ℕ) : round6 ((n : ℕ) : ℚ) = (n : ℚ) := by
  rw [round6]
  rw [if_neg (by simp : ¬((n : ℚ) < 0))]
  rw [abs_of_nonneg (by positivity)]
  have hfl : ⌊(n : ℚ) * 1000000 + 1 / 2⌋ = (n : ℤ) * 1000000 := by
    rw [Int.floor_eq_iff]
    constructor
    · push_cast
      linarith
    · push_cast
      linarith
  rw [hfl]
  have h2 : ((n : ℤ) * 1000000).toNat = n * 1000000 := by
    rw [show (n : ℤ) * 1000000 = ((n * 1000000 : ℕ) : ℤ) by push_cast; ring, Int.toNat_natCast]
  rw [h2]
  push_cast
  field_simp

/-! ## Claim theorems -/

/-- C2 (code evaluation at the failing input): `cd_it8_add_data` with a
present RGB argument and an absent XYZ argument has no defined post-state
(the source passes the null XYZ to `cd_color_xyz_dup`), instead of appending
the black pair `((0,0,0),(0,0,0))` its own documentation promises; and with
an absent RGB and a *present* XYZ, the given XYZ is discarded and black is
appended for both channels. -/
theorem claim_C2_code_eval :
    cd_it8_add_data cd_it8_new (some ⟨1/2, 1/2, 1/2⟩) none = none ∧
    (cd_it8_add_data cd_it8_new none (some ⟨1, 2, 3⟩)).map
        (fun d => (d.array_rgb, d.array_xyz)) =
      some ([⟨0, 0, 0⟩], [⟨0, 0, 0⟩]) := by
  exact ⟨rfl, rfl⟩

/-- C3 (code evaluation at the failing input): `cd_it8_get_data_item` called
with the index equal to `cd_it8_get_data_size` succeeds (the source checks
`idx > len`, not `idx ≥ len`), reading past the end of the arrays, instead
of failing with `OutOfRange` as the claim and the function's own
documentation ("TRUE if the index existed") require. -/
theorem claim_C3_code_eval :
    cd_it8_get_data_size docOne = 1 ∧
    (cd_it8_get_data_item docOne 1).1 = true ∧
    (cd_it8_get_data_item docOne 1).2.1 = none ∧
    (cd_it8_get_data_item docOne 2).1 = false := by
  exact ⟨rfl, rfl, rfl, rfl⟩

/-- C4 (counterexample): a document with one sample and a nonzero matrix,
fed unparseable bytes, fails with `Malformed` but does not keep its prior
state — the sample arrays and the matrix have been cleared by the load. -/
theorem claim_C4_counterexample :
    (cd_it8_load docPrior none).2 = some CdIt8Error.Malformed ∧
    docPrior.array_rgb.length = 1 ∧
    (cd_it8_load docPrior none).1.array_rgb.length = 0 ∧
    docPrior.matrix ≠ cdMat33Zero ∧
    (cd_it8_load docPrior none).1.matrix = cdMat33Zero := by
  refine ⟨rfl, rfl, rfl, ?_, rfl⟩
  decide

/-- C4 (amended): a failed load leaves no partially-loaded data — the sample
arrays are empty and the matrix zero (because the load clears them
unconditionally on entry, losing the prior contents rather than preserving
them) — and every field other than `kind`, the samples and the matrix is
unchanged. -/
theorem claim_C4_amended (d : CdIt8) (input : Option CmsIT8) (e : CdIt8Error)
    (h : (cd_it8_load d input).2 = some e) :
    (cd_it8_load d input).1.array_rgb = [] ∧
    (cd_it8_load d input).1.array_xyz = [] ∧
    (cd_it8_load d input).1.matrix = cdMat33Zero ∧
    (cd_it8_load d input).1.normalized = d.normalized ∧
    (cd_it8_load d input).1.spectral = d.spectral ∧
    (cd_it8_load d input).1.instrument = d.instrument ∧
    (cd_it8_load d input).1.originator = d.originator ∧
    (cd_it8_load d input).1.reference = d.reference := by
  cases input with
  | none => exact ⟨rfl, rfl, rfl, rfl, rfl, rfl, rfl, rfl⟩
  | some f =>
    simp only [cd_it8_load] at h ⊢
    by_cases h1 : strHasPre "CTI1" (cmsIT8GetSheetType f)
    · rw [if_pos h1] at h ⊢
      rcases load_ti1_ti3_cases
          (cd_it8_set_kind { d with array_rgb := [], array_xyz := [], matrix := cdMat33Zero }
            CdIt8Kind.ti1) f with h2 | h2 | h2
      · have hd' : cd_it8_load_ti1_ti3
            (cd_it8_set_kind { d with array_rgb := [], array_xyz := [], matrix := cdMat33Zero }
              CdIt8Kind.ti1) f =
            ((cd_it8_load_ti1_ti3
              (cd_it8_set_kind { d with array_rgb := [], array_xyz := [], matrix := cdMat33Zero }
                CdIt8Kind.ti1) f).1, none) := by
          rw [← h2]
        rw [hd'] at h
        simp at h
      · rw [h2] at h ⊢
        exact ⟨rfl, rfl, rfl, rfl, rfl, rfl, rfl, rfl⟩
      · rw [h2] at h ⊢
        exact ⟨rfl, rfl, rfl, rfl, rfl, rfl, rfl, rfl⟩
    · rw [if_neg h1] at h ⊢
      by_cases h2 : strHasPre "CTI3" (cmsIT8GetSheetType f)
      · rw [if_pos h2] at h ⊢
        rcases load_ti1_ti3_cases
            (cd_it8_set_kind { d with array_rgb := [], array_xyz := [], matrix := cdMat33Zero }
              CdIt8Kind.ti3) f with h3 | h3 | h3
        · have hd' : cd_it8_load_ti1_ti3
              (cd_it8_set_kind { d with array_rgb := [], array_xyz := [], matrix := cdMat33Zero }
                CdIt8Kind.ti3) f =
              ((cd_it8_load_ti1_ti3
                (cd_it8_set_kind { d with array_rgb := [], array_xyz := [], matrix := cdMat33Zero }
                  CdIt8Kind.ti3) f).1, none) := by
            rw [← h3]
          rw [hd'] at h
          simp at h
        · rw [h3] at h ⊢
          exact ⟨rfl, rfl, rfl, rfl, rfl, rfl, rfl, rfl⟩
        · rw [h3] at h ⊢
          exact ⟨rfl, rfl, rfl, rfl, rfl, rfl, rfl, rfl⟩
      · rw [if_neg h2] at h ⊢
        by_cases h3 : strHasPre "CCMX" (cmsIT8GetSheetType f)
        · rw [if_pos h3] at h ⊢
          rcases load_ccmx_cases
              (cd_it8_set_kind { d with array_rgb := [], array_xyz := [], matrix := cdMat33Zero }
                CdIt8Kind.ccmx) f with h4 | h4
          · have hd' : cd_it8_load_ccmx
                (cd_it8_set_kind { d with array_rgb := [], array_xyz := [], matrix := cdMat33Zero }
                  CdIt8Kind.ccmx) f =
                ((cd_it8_load_ccmx
                  (cd_it8_set_kind { d with array_rgb := [], array_xyz := [], matrix := cdMat33Zero }
                    CdIt8Kind.ccmx) f).1, none) := by
              rw [← h4]
            rw [hd'] at h
            simp at h
          · rw [h4] at h ⊢
            exact ⟨rfl, rfl, rfl, rfl, rfl, rfl, rfl, rfl⟩
        · rw [if_neg h3] at h ⊢
          exact ⟨rfl, rfl, rfl, rfl, rfl, rfl, rfl, rfl⟩

/-- C5 (counterexample): a CTI3 input marked `NORMALIZED_TO_Y_100 = "YES"`
whose `LUMINANCE_XYZ_CDM2` is `"a b c"` — three tokens, none numeric — loads
*successfully*: `atof` maps the non-numeric tokens to `0` and no error is
raised, contradicting the claim that a non-numeric token causes
`InvalidLuminance`. -/
theorem claim_C5_counterexample :
    (cd_it8_load cd_it8_new (some fBadLum)).2 = none ∧
    (cd_it8_load cd_it8_new (some fTwoTok)).2 = some CdIt8Error.InvalidLuminance := by
  exact ⟨rfl, rfl⟩

/-- C5 (amended): with the sheet type recognised as a calibration target and
`COLOR_REP`/`NORMALIZED_TO_Y_100` in place, the load fails with
`InvalidLuminance` *iff* `LUMINANCE_XYZ_CDM2` does not split into exactly
three tokens on single spaces; the tokens themselves are never checked for
numeric form (`atof` parses a non-numeric token as `0.0`). -/
theorem claim_C5_amended (d : CdIt8) (f : CmsIT8)
    (hsheet : strHasPre "CTI1" (cmsIT8GetSheetType f) = true ∨
      strHasPre "CTI3" (cmsIT8GetSheetType f) = true)
    (hcolor : cmsIT8GetProperty f "COLOR_REP" = some "RGB_XYZ")
    (hnormp : cmsIT8GetProperty f "NORMALIZED_TO_Y_100" = some "YES") :
    ((cd_it8_load d (some f)).2 = some CdIt8Error.InvalidLuminance ↔
      (g_strsplit (cmsIT8GetProperty f "LUMINANCE_XYZ_CDM2")).length ≠ 3) := by
  simp only [cd_it8_load]
  by_cases h1 : strHasPre "CTI1" (cmsIT8GetSheetType f)
  · rw [if_pos h1]
    rcases load_ti1_ti3_lum_cases
        (cd_it8_set_kind { d with array_rgb := [], array_xyz := [], matrix := cdMat33Zero }
          CdIt8Kind.ti1) f hcolor hnormp with ⟨heq, hs⟩ | ⟨heq, hs⟩
    · rw [heq]
      simp [hs]
    · have hd' : cd_it8_load_ti1_ti3
          (cd_it8_set_kind { d with array_rgb := [], array_xyz := [], matrix := cdMat33Zero }
            CdIt8Kind.ti1) f =
          ((cd_it8_load_ti1_ti3
            (cd_it8_set_kind { d with array_rgb := [], array_xyz := [], matrix := cdMat33Zero }
              CdIt8Kind.ti1) f).1, none) := by
        rw [← heq]
      rw [hd']
      simp [hs]
  · rcases hsheet with hs1 | hs1
    · exact absurd hs1 h1
    · rw [if_neg h1, if_pos hs1]
      rcases load_ti1_ti3_lum_cases
          (cd_it8_set_kind { d with array_rgb := [], array_xyz := [], matrix := cdMat33Zero }
            CdIt8Kind.ti3) f hcolor hnormp with ⟨heq, hs⟩ | ⟨heq, hs⟩
      · rw [heq]
        simp [hs]
      · have hd' : cd_it8_load_ti1_ti3
            (cd_it8_set_kind { d with array_rgb := [], array_xyz := [], matrix := cdMat33Zero }
              CdIt8Kind.ti3) f =
            ((cd_it8_load_ti1_ti3
              (cd_it8_set_kind { d with array_rgb := [], array_xyz := [], matrix := cdMat33Zero }
                CdIt8Kind.ti3) f).1, none) := by
          rw [← heq]
        rw [hd']
        simp [hs]

/-- C6: saving a normalised calibration-target document in which no sample is
a white reference — no sample has all three RGB channels within `0.01` of
`1.0` in absolute value — fails with `NoWhiteSample`. -/
theorem claim_C6 (d : CdIt8)
    (hkind : d.kind = CdIt8Kind.ti1 ∨ d.kind = CdIt8Kind.ti3)
    (hnorm : d.normalized = true)
    (hw : ∀ i < d.array_rgb.length,
      ¬(|(d.array_rgb.getD i ⟨0, 0, 0⟩).R - 1| ≤ 1 / 100 ∧
        |(d.array_rgb.getD i ⟨0, 0, 0⟩).G - 1| ≤ 1 / 100 ∧
        |(d.array_rgb.getD i ⟨0, 0, 0⟩).B - 1| ≤ 1 / 100)) :
    cd_it8_save d = Except.error (some CdIt8Error.NoWhiteSample) := by
  have hwl : whiteIdxL d.array_rgb = [] := by
    rw [whiteIdxL, List.filter_eq_nil_iff]
    intro i hi
    rw [List.mem_range] at hi
    intro hp
    exact hw i hi ((color_match_iff _ _ _ _).mp hp)
  rcases hkind with hk | hk <;>
    simp only [cd_it8_save, cd_it8_save_ti1_ti3, white_scan_eq, hk, hnorm, hwl,
      eq_self_iff_true, true_or, or_true, if_true, List.length_nil, and_self]

theorem add_data_align (d : CdIt8) (rgb : Option CdColorRGB) (xyz : Option CdColorXYZ)
    (d' : CdIt8) (hal : d.array_rgb.length = d.array_xyz.length)
    (h : cd_it8_add_data d rgb xyz = some d') :
    d'.array_rgb.length = d'.array_xyz.length := by
  cases rgb with
  | none =>
    simp only [cd_it8_add_data, Option.some.injEq] at h
    subst h
    simp [hal]
  | some r =>
    cases xyz with
    | none =>
      simp only [cd_it8_add_data] at h
      exact absurd h (by simp)
    | some x =>
      simp only [cd_it8_add_data, Option.some.injEq] at h
      subst h
      simp [hal]

/-- C8: the alignment invariant.  First conjunct: any finite sequence of
`cd_it8_add_data` calls, with any combination of present and absent
arguments, that reaches a defined post-state preserves
`array_rgb.length = array_xyz.length`.  Second conjunct: any successful
load establishes the same invariant. -/
theorem claim_C8 :
    (∀ (d : CdIt8) (l : List (Option CdColorRGB × Option CdColorXYZ)) (d' : CdIt8),
      d.array_rgb.length = d.array_xyz.length → addSeq d l = some d' →
      d'.array_rgb.length = d'.array_xyz.length) ∧
    (∀ (d : CdIt8) (input : Option CmsIT8), (cd_it8_load d input).2 = none →
      (cd_it8_load d input).1.array_rgb.length = (cd_it8_load d input).1.array_xyz.length) := by
  constructor
  · intro d l
    induction l generalizing d with
    | nil =>
      intro d' hal h
      rw [addSeq, Option.some.injEq] at h
      subst h
      exact hal
    | cons p ps ih =>
      intro d' hal h
      rw [addSeq] at h
      cases hadd : cd_it8_add_data d p.1 p.2 with
      | none =>
        rw [hadd] at h
        exact absurd h (by simp)
      | some dmid =>
        rw [hadd] at h
        exact ih dmid d' (add_data_align d p.1 p.2 dmid hal hadd) h
  · intro d input h
    cases input with
    | none => exact absurd h (by simp [cd_it8_load])
    | some f =>
      simp only [cd_it8_load] at h ⊢
      by_cases h1 : strHasPre "CTI1" (cmsIT8GetSheetType f)
      · rw [if_pos h1] at h ⊢
        cases hres : cd_it8_load_ti1_ti3 (cd_it8_set_kind { d with array_rgb := [], array_xyz := [], matrix := cdMat33Zero } CdIt8Kind.ti1) f with
        | mk d1 e1 =>
          cases e1 with
          | some e =>
            rw [hres] at h
            simp at h
          | none =>
            have halign := load_ti1_ti3_align (cd_it8_set_kind { d with array_rgb := [], array_xyz := [], matrix := cdMat33Zero } CdIt8Kind.ti1) f rfl
            rw [hres] at halign
            exact halign
      · rw [if_neg h1] at h ⊢
        by_cases h2 : strHasPre "CTI3" (cmsIT8GetSheetType f)
        · rw [if_pos h2] at h ⊢
          cases hres : cd_it8_load_ti1_ti3 (cd_it8_set_kind { d with array_rgb := [], array_xyz := [], matrix := cdMat33Zero } CdIt8Kind.ti3) f with
          | mk d1 e1 =>
            cases e1 with
            | some e =>
              rw [hres] at h
              simp at h
            | none =>
              have halign := load_ti1_ti3_align (cd_it8_set_kind { d with array_rgb := [], array_xyz := [], matrix := cdMat33Zero } CdIt8Kind.ti3) f rfl
              rw [hres] at halign
              exact halign
        · rw [if_neg h2] at h ⊢
          by_cases h3 : strHasPre "CCMX" (cmsIT8GetSheetType f)
          · rw [if_pos h3] at h ⊢
            cases hres : cd_it8_load_ccmx (cd_it8_set_kind { d with array_rgb := [], array_xyz := [], matrix := cdMat33Zero } CdIt8Kind.ccmx) f with
            | mk d1 e1 =>
              cases e1 with
              | some e =>
                rw [hres] at h
                simp at h
              | none =>
                have harr := load_ccmx_arrays (cd_it8_set_kind { d with array_rgb := [], array_xyz := [], matrix := cdMat33Zero } CdIt8Kind.ccmx) f
                rw [hres] at harr
                show d1.array_rgb.length = d1.array_xyz.length
                rw [harr.1, harr.2]
                rfl
          · rw [if_neg h3] at h
            simp at h

/-- C9: the CCMX round trip.  Saving a `CorrectionMatrix` document and
reloading the emitted handle into a fresh document succeeds and reproduces
the 3×3 matrix exactly (cells are written and read as doubles; the model's
serialisation of cells is exact). -/
theorem claim_C9 (d : CdIt8) (hk : d.kind = CdIt8Kind.ccmx) :
    ∃ F, cd_it8_save d = Except.ok F ∧
      (cd_it8_load cd_it8_new (some F)).2 = none ∧
      (cd_it8_load cd_it8_new (some F)).1.matrix = d.matrix := by
  have hc1 : strHasPre "CTI1" "CCMX" = false := by decide
  have hc3 : strHasPre "CTI3" "CCMX" = false := by decide
  have hcc : strHasPre "CCMX" "CCMX" = true := by decide
  simp only [cd_it8_save, cd_it8_save_ccmx, hk]
  rw [if_pos trivial]
  refine ⟨_, rfl, ?_, ?_⟩ <;>
    simp [cd_it8_load, cd_it8_load_ccmx, cd_it8_load_common, cmsIT8GetSheetType,
      cmsIT8GetDataRowColDbl, cd_it8_set_kind, cd_it8_set_instrument, cd_it8_set_originator,
      cd_it8_set_reference, hc1, hc3, hcc, -Prod.mk_zero_zero, -Prod.mk_one_one]

theorem whiteRefs_lt (d : CdIt8) : ∀ j ∈ whiteRefs d, j < d.array_rgb.length := by
  intro j hj
  rw [whiteRefs, whiteIdxL] at hj
  exact List.mem_range.mp (List.mem_filter.mp hj).1

theorem whiteRefs_ne_nil_of_exact (d : CdIt8)
    (h : (⟨1, 1, 1⟩ : CdColorRGB) ∈ d.array_rgb) : whiteRefs d ≠ [] := by
  obtain ⟨i, hi, heq⟩ := List.mem_iff_getElem.mp h
  have hmem : i ∈ whiteRefs d := by
    rw [whiteRefs, whiteIdxL, List.mem_filter]
    refine ⟨List.mem_range.mpr hi, ?_⟩
    rw [List.getD_eq_getElem _ _ hi, heq, color_match_iff]
    norm_num
  exact List.ne_nil_of_mem hmem

theorem cm_white_true : cd_it8_color_match ⟨1, 1, 1⟩ 1 1 1 = true := by
  rw [color_match_iff]
  norm_num

theorem cm_black_false : cd_it8_color_match ⟨0, 0, 0⟩ 1 1 1 = false := by
  by_contra hc
  have h := (color_match_iff ⟨0, 0, 0⟩ 1 1 1).mp (Bool.not_eq_false _ |>.mp hc)
  have h1 := h.1
  rw [show ((⟨0, 0, 0⟩ : CdColorRGB).R - 1) = -1 by norm_num, abs_le] at h1
  have := h1.1
  norm_num at this

theorem whiteIdxL_docWhite : whiteIdxL docWhite.array_rgb = [1] := by
  rw [whiteIdxL]
  rw [show docWhite.array_rgb.length = 2 from rfl, show List.range 2 = [0, 1] from rfl]
  simp only [List.filter_cons, List.filter_nil]
  rw [show (docWhite.array_rgb.getD 0 ⟨0, 0, 0⟩) = ⟨0, 0, 0⟩ from rfl]
  rw [show (docWhite.array_rgb.getD 1 ⟨0, 0, 0⟩) = ⟨1, 1, 1⟩ from rfl]
  rw [cm_white_true, cm_black_false]
  rfl

theorem whiteRefs_docWhite_ne_nil : whiteRefs docWhite ≠ [] := by
  rw [whiteRefs, whiteIdxL_docWhite]
  exact List.cons_ne_nil 1 []

theorem cdWhiteAvg_docWhite : cdWhiteAvg docWhite = ⟨95, 100, 109⟩ := by
  rw [cdWhiteAvg, whiteRefs, whiteIdxL_docWhite, cdWhiteSumL, whiteIdxL_docWhite]
  simp only [List.map_cons, List.map_nil, List.sum_cons, List.sum_nil, List.length_cons,
    List.length_nil]
  rw [show (docWhite.array_xyz.getD 1 ⟨0, 0, 0⟩) = ⟨95, 100, 109⟩ from rfl]
  norm_num

theorem cdMaxWhiteY_docWhite : cdMaxWhiteY docWhite = 100 := by
  rw [cdMaxWhiteY, cdMaxWhiteYL, whiteIdxL_docWhite]
  simp only [List.map_cons, List.map_nil]
  rw [show (docWhite.array_xyz.getD 1 ⟨0, 0, 0⟩) = ⟨95, 100, 109⟩ from rfl]
  rw [foldMaxQ, List.foldl_cons, List.foldl_nil]
  norm_num

theorem scanRet_docWhite : cd_it8_scan_ret docWhite = true := by
  rw [cd_it8_scan_ret, if_pos (show docWhite.normalized = true from rfl)]
  rw [show docWhite.array_rgb.length = 2 from rfl, show List.range 2 = [0, 1] from rfl]
  rw [List.foldl_cons, List.foldl_cons, List.foldl_nil]
  rw [show (docWhite.array_rgb.getD 1 ⟨0, 0, 0⟩) = ⟨1, 1, 1⟩ from rfl]
  exact cm_white_true

theorem scanRet_docWhiteBlack : cd_it8_scan_ret docWhiteBlack = false := by
  rw [cd_it8_scan_ret, if_pos (show docWhiteBlack.normalized = true from rfl)]
  rw [show docWhiteBlack.array_rgb.length = 2 from rfl, show List.range 2 = [0, 1] from rfl]
  rw [List.foldl_cons, List.foldl_cons, List.foldl_nil]
  rw [show (docWhiteBlack.array_rgb.getD 1 ⟨0, 0, 0⟩) = ⟨0, 0, 0⟩ from rfl]
  exact cm_black_false

theorem whiteIdxL_docWhiteBlack : whiteIdxL docWhiteBlack.array_rgb = [0] := by
  rw [whiteIdxL]
  rw [show docWhiteBlack.array_rgb.length = 2 from rfl, show List.range 2 = [0, 1] from rfl]
  simp only [List.filter_cons, List.filter_nil]
  rw [show (docWhiteBlack.array_rgb.getD 0 ⟨0, 0, 0⟩) = ⟨1, 1, 1⟩ from rfl]
  rw [show (docWhiteBlack.array_rgb.getD 1 ⟨0, 0, 0⟩) = ⟨0, 0, 0⟩ from rfl]
  rw [cm_white_true, cm_black_false]
  rfl

theorem cdMaxWhiteY_docWhiteBlack : cdMaxWhiteY docWhiteBlack = 100 := by
  rw [cdMaxWhiteY, cdMaxWhiteYL, whiteIdxL_docWhiteBlack]
  simp only [List.map_cons, List.map_nil]
  rw [show (docWhiteBlack.array_xyz.getD 0 ⟨0, 0, 0⟩) = ⟨95, 100, 109⟩ from rfl]
  rw [foldMaxQ, List.foldl_cons, List.foldl_nil]
  norm_num

/-- Inversion of a successful normalised ti1/ti3 save: success forces a
nonempty white-reference set and a surviving return variable (the last
sample matches white). -/
theorem save_ok_ret (d : CdIt8) (F : CmsIT8)
    (hkind : d.kind = CdIt8Kind.ti1 ∨ d.kind = CdIt8Kind.ti3)
    (hnorm : d.normalized = true)
    (hsave : cd_it8_save d = Except.ok F) :
    whiteRefs d ≠ [] ∧ cd_it8_scan_ret d = true := by
  have hw : whiteRefs d ≠ [] := by
    intro hnil
    have hwl : whiteIdxL d.array_rgb = [] := by rwa [whiteRefs] at hnil
    rcases hkind with hk | hk <;>
      (simp only [cd_it8_save, cd_it8_save_ti1_ti3, white_scan_eq, hk, hnorm, hwl,
        eq_self_iff_true, true_or, or_true, if_true, List.length_nil, and_self] at hsave
       exact Except.noConfusion hsave)
  refine ⟨hw, ?_⟩
  by_contra hr
  rw [Bool.not_eq_true] at hr
  have hcount : ((whiteIdxL d.array_rgb).length = 0) = False := by
    simp only [eq_iff_iff, iff_false, ne_eq, List.length_eq_zero]
    rwa [whiteRefs] at hw
  rcases hkind with hk | hk <;>
    (simp only [cd_it8_save, cd_it8_save_ti1_ti3, white_scan_eq, hk, hnorm, hcount, hr,
      and_false, if_false, eq_self_iff_true, true_or, or_true, if_true,
      Bool.false_eq_true] at hsave
     exact Except.noConfusion hsave)

/-- C7 (counterexample): `docWhiteBlack` is a normalised calibration-target
document with a white reference (index 0) and nonzero maximum white Y, yet
its save emits nothing: the scan loop overwrites the C return variable with
each sample's white-match result and never resets it, so the black sample in
last position makes the function return `FALSE` with no error set — the
claim's universally quantified emission fails for it. -/
theorem claim_C7_counterexample :
    docWhiteBlack.normalized = true ∧
    whiteRefs docWhiteBlack ≠ [] ∧
    cdMaxWhiteY docWhiteBlack ≠ 0 ∧
    cd_it8_save docWhiteBlack = Except.error none := by
  have hcount : ((whiteIdxL docWhiteBlack.array_rgb).length = 0) = False := by
    rw [whiteIdxL_docWhiteBlack]
    simp
  refine ⟨rfl, ?_, ?_, ?_⟩
  · rw [whiteRefs, whiteIdxL_docWhiteBlack]
    exact List.cons_ne_nil 0 []
  · rw [cdMaxWhiteY_docWhiteBlack]
    norm_num
  · simp only [cd_it8_save, cd_it8_save_ti1_ti3, white_scan_eq, scanRet_docWhiteBlack,
      show docWhiteBlack.kind = CdIt8Kind.ti3 from rfl,
      show docWhiteBlack.normalized = true from rfl, hcount,
      and_false, if_false, eq_self_iff_true, true_or, or_true, if_true,
      Bool.false_eq_true]

/-- C7 (amended): for a normalised calibration-target save whose white
references have nonnegative Y (XYZ are absolute photometric readings), a
nonzero largest white Y, and a surviving return variable (the scan clobbers
the C return value with every sample's white match, so the last sample must
itself match white for the save to emit anything): the divisor really is the
largest Y among the white references (member and upper bound, so "not the
averaged Y"); every emitted XYZ cell is the sample's XYZ multiplied by
`s = 100 / maxY`; `LUMINANCE_XYZ_CDM2` is emitted as the `%f`-serialised
componentwise average of the white references' XYZ; and every brightest
white sample is written with Y exactly `100`. -/
theorem claim_C7_amended (d : CdIt8)
    (hkind : d.kind = CdIt8Kind.ti1 ∨ d.kind = CdIt8Kind.ti3)
    (hnorm : d.normalized = true)
    (hw : whiteRefs d ≠ [])
    (hret : cd_it8_scan_ret d = true)
    (hnn : ∀ i ∈ whiteRefs d, 0 ≤ (d.array_xyz.getD i ⟨0, 0, 0⟩).Y)
    (hmax : cdMaxWhiteY d ≠ 0) :
    ∃ F, cd_it8_save d = Except.ok F ∧
      (cdMaxWhiteY d ∈ (whiteRefs d).map (fun i => (d.array_xyz.getD i ⟨0, 0, 0⟩).Y) ∧
        ∀ y ∈ (whiteRefs d).map (fun i => (d.array_xyz.getD i ⟨0, 0, 0⟩).Y),
          y ≤ cdMaxWhiteY d) ∧
      (∀ i < d.array_rgb.length,
        F.data (i, 4) = (d.array_xyz.getD i ⟨0, 0, 0⟩).X * (100 / cdMaxWhiteY d) ∧
        F.data (i, 5) = (d.array_xyz.getD i ⟨0, 0, 0⟩).Y * (100 / cdMaxWhiteY d) ∧
        F.data (i, 6) = (d.array_xyz.getD i ⟨0, 0, 0⟩).Z * (100 / cdMaxWhiteY d)) ∧
      cmsIT8GetProperty F "LUMINANCE_XYZ_CDM2" =
        some (lumiString (cdWhiteAvg d).X (cdWhiteAvg d).Y (cdWhiteAvg d).Z) ∧
      (∀ j ∈ whiteRefs d, (d.array_xyz.getD j ⟨0, 0, 0⟩).Y = cdMaxWhiteY d →
        F.data (j, 5) = 100) := by
  obtain ⟨F, hsave, _, _, _, hlum, _, hdata⟩ := save_norm_spec d hkind hnorm hw hret
  have hnn' : ∀ y ∈ (whiteRefs d).map (fun i => (d.array_xyz.getD i ⟨0, 0, 0⟩).Y), 0 ≤ y := by
    intro y hy
    obtain ⟨i, hi, rfl⟩ := List.mem_map.mp hy
    exact hnn i hi
  have hmaxprop := foldMaxQ_is_max
    ((whiteRefs d).map (fun i => (d.array_xyz.getD i ⟨0, 0, 0⟩).Y)) (by simpa using hw) hnn'
  refine ⟨F, hsave, hmaxprop, ?_, hlum, ?_⟩
  · intro i hi
    have h4 := hdata i hi 4 (by norm_num)
    have h5 := hdata i hi 5 (by norm_num)
    have h6 := hdata i hi 6 (by norm_num)
    rw [show cdRowVal d (100 / cdMaxWhiteY d) i 4 =
        if d.normalized = true then
          (d.array_xyz.getD i ⟨0, 0, 0⟩).X * (100 / cdMaxWhiteY d)
        else (d.array_xyz.getD i ⟨0, 0, 0⟩).X from rfl, if_pos hnorm] at h4
    rw [show cdRowVal d (100 / cdMaxWhiteY d) i 5 =
        if d.normalized = true then
          (d.array_xyz.getD i ⟨0, 0, 0⟩).Y * (100 / cdMaxWhiteY d)
        else (d.array_xyz.getD i ⟨0, 0, 0⟩).Y from rfl, if_pos hnorm] at h5
    rw [show cdRowVal d (100 / cdMaxWhiteY d) i 6 =
        if d.normalized = true then
          (d.array_xyz.getD i ⟨0, 0, 0⟩).Z * (100 / cdMaxWhiteY d)
        else (d.array_xyz.getD i ⟨0, 0, 0⟩).Z from rfl, if_pos hnorm] at h6
    exact ⟨h4, h5, h6⟩
  · intro j hj hjmax
    have h5 := hdata j (whiteRefs_lt d j hj) 5 (by norm_num)
    rw [show cdRowVal d (100 / cdMaxWhiteY d) j 5 =
        if d.normalized = true then
          (d.array_xyz.getD j ⟨0, 0, 0⟩).Y * (100 / cdMaxWhiteY d)
        else (d.array_xyz.getD j ⟨0, 0, 0⟩).Y from rfl, if_pos hnorm, hjmax] at h5
    rw [h5]
    field_simp

/-- C10: for a normalised calibration-target document that saves successfully
(`cd_it8_save d = Except.ok F`, exactly the claim's conditioning — success
itself requires a white reference and a white-matching last sample, by
`save_ok_ret`), the emitted handle carries `NORMALIZED_TO_Y_100 = "YES"`, the
saver writes the RGB cells unscaled, and reloading divides every RGB channel
by 100 — so the reloaded RGB channels equal the originals divided by 100,
and RGB is not preserved by the normalised round trip. -/
theorem claim_C10 (d : CdIt8) (F : CmsIT8)
    (hkind : d.kind = CdIt8Kind.ti1 ∨ d.kind = CdIt8Kind.ti3)
    (hnorm : d.normalized = true)
    (hlen : d.array_rgb.length = d.array_xyz.length)
    (hsave : cd_it8_save d = Except.ok F) :
    cmsIT8GetProperty F "NORMALIZED_TO_Y_100" = some "YES" ∧
      (∀ i < d.array_rgb.length,
        F.data (i, 1) = (d.array_rgb.getD i ⟨0, 0, 0⟩).R ∧
        F.data (i, 2) = (d.array_rgb.getD i ⟨0, 0, 0⟩).G ∧
        F.data (i, 3) = (d.array_rgb.getD i ⟨0, 0, 0⟩).B) ∧
      (cd_it8_load cd_it8_new (some F)).2 = none ∧
      (cd_it8_load cd_it8_new (some F)).1.array_rgb =
        d.array_rgb.map (fun c => ⟨c.R / 100, c.G / 100, c.B / 100⟩) := by
  obtain ⟨hw, hret⟩ := save_ok_ret d F hkind hnorm hsave
  obtain ⟨F0, hsave0, hsheet, hcolor, hnormp, hlum, hsets, hdata⟩ :=
    save_norm_spec d hkind hnorm hw hret
  obtain ⟨F', hsave', hyes', herr', _, hrgb', _⟩ := load_norm_spec d hkind hnorm hlen hw hret
  rw [hsave] at hsave' hsave0
  have hFF : F' = F := by
    cases hsave'
    rfl
  have hFF0 : F0 = F := by
    cases hsave0
    rfl
  rw [hFF] at hyes' herr' hrgb'
  rw [hFF0] at hdata
  refine ⟨hyes', ?_, herr', hrgb'⟩
  intro i hi
  exact ⟨hdata i hi 1 (by norm_num), hdata i hi 2 (by norm_num), hdata i hi 3 (by norm_num)⟩

/-- C1 (counterexample): `docWhite` is a normalised calibration-target
document containing a sample with RGB exactly `(1,1,1)` (and XYZ
`(95,100,109)`, in last position so the saver's clobbered return variable
survives and the save genuinely succeeds).  Reloading its saved bytes into a
fresh document leaves the `normalized` flag `false` — the loader never sets
it — and yields sample-1 X = 90.25, not 95: the loader multiplies
componentwise by the recorded luminance after the saver divided every
component by the maximum white *Y*, a discrepancy far beyond serialization
precision. -/
theorem claim_C1_counterexample :
    docWhite.normalized = true ∧
    (⟨1, 1, 1⟩ : CdColorRGB) ∈ docWhite.array_rgb ∧
    (∃ F, cd_it8_save docWhite = Except.ok F ∧
      cmsIT8GetProperty F "NORMALIZED_TO_Y_100" = some "YES") ∧
    (cd_it8_load cd_it8_new (cd_it8_save docWhite).toOption).1.normalized = false ∧
    ((cd_it8_load cd_it8_new (cd_it8_save docWhite).toOption).1.array_xyz.getD 1
      ⟨0, 0, 0⟩).X = 361 / 4 ∧
    (361 / 4 : ℚ) ≠ 95 := by
  have hmem : (⟨1, 1, 1⟩ : CdColorRGB) ∈ docWhite.array_rgb := by
    rw [docWhite]
    simp
  have hr95 : round6 (95 : ℚ) = 95 := by
    rw [show (95 : ℚ) = ((95 : ℕ) : ℚ) by norm_num, round6_natCast]
  obtain ⟨F, hsave, hyes, herr, hflag, hrgb, hxyz⟩ :=
    load_norm_spec docWhite (Or.inr rfl) rfl rfl whiteRefs_docWhite_ne_nil scanRet_docWhite
  rw [hsave]
  refine ⟨rfl, hmem, ⟨F, rfl, hyes⟩, hflag, ?_, by norm_num⟩
  rw [show (Except.ok F : Except (Option CdIt8Error) CmsIT8).toOption = some F from rfl]
  rw [hxyz]
  rw [show docWhite.array_xyz = [⟨0, 0, 0⟩, ⟨95, 100, 109⟩] from rfl]
  rw [List.map_cons, List.map_cons]
  rw [show ∀ l : List CdColorXYZ, ∀ a b : CdColorXYZ, (a :: b :: l).getD 1 ⟨0, 0, 0⟩ = b
    from fun l a b => rfl]
  rw [cdWhiteAvg_docWhite, cdMaxWhiteY_docWhite]
  rw [show (⟨95, 100, 109⟩ : CdColorXYZ).X = 95 from rfl]
  rw [hr95]
  norm_num

/-- C1 (amended): for a normalised calibration-target document containing a
sample with RGB exactly `(1,1,1)`, positive maximum white Y, and a surviving
return variable (the scan loop clobbers the C return value with each
sample's white match and never resets it, so the last sample must itself
match white — otherwise the real save returns `FALSE` and emits nothing),
the saved bytes do carry `NORMALIZED_TO_Y_100 = "YES"`, but reloading them
into a fresh document leaves `normalized = false` (the loader never stores
the flag), and recovers each XYZ component scaled by
`round6(avgWhite)/maxWhiteY` componentwise (`round6` being the `%f`
serialization precision) — the original absolute XYZ values are recovered
only in components where the averaged white equals the maximum white Y. -/
theorem claim_C1_amended (d : CdIt8)
    (hkind : d.kind = CdIt8Kind.ti1 ∨ d.kind = CdIt8Kind.ti3)
    (hnorm : d.normalized = true)
    (hlen : d.array_rgb.length = d.array_xyz.length)
    (hwhite : (⟨1, 1, 1⟩ : CdColorRGB) ∈ d.array_rgb)
    (hret : cd_it8_scan_ret d = true)
    (hmax : 0 < cdMaxWhiteY d) :
    ∃ F, cd_it8_save d = Except.ok F ∧
      cmsIT8GetProperty F "NORMALIZED_TO_Y_100" = some "YES" ∧
      (cd_it8_load cd_it8_new (some F)).2 = none ∧
      (cd_it8_load cd_it8_new (some F)).1.normalized = false ∧
      (cd_it8_load cd_it8_new (some F)).1.array_xyz =
        d.array_xyz.map (fun c =>
          ⟨c.X * round6 (cdWhiteAvg d).X / cdMaxWhiteY d,
           c.Y * round6 (cdWhiteAvg d).Y / cdMaxWhiteY d,
           c.Z * round6 (cdWhiteAvg d).Z / cdMaxWhiteY d⟩) := by
  have hw : whiteRefs d ≠ [] := whiteRefs_ne_nil_of_exact d hwhite
  have hM : cdMaxWhiteY d ≠ 0 := ne_of_gt hmax
  obtain ⟨F, hsave, hyes, herr, hflag, _, hxyz⟩ := load_norm_spec d hkind hnorm hlen hw hret
  refine ⟨F, hsave, hyes, herr, hflag, ?_⟩
  rw [hxyz]
  apply List.map_congr_left
  intro c _
  simp only [CdColorXYZ.mk.injEq]
  refine ⟨?_, ?_, ?_⟩ <;> (field_simp; ring)

/-! ## Witnesses: the claim theorems applied at concrete inputs -/

/-- C1 (amended) witness: the amended round-trip theorem applied to
`docWhite`. -/
theorem claim_C1_amended_witness :
    ∃ F, cd_it8_save docWhite = Except.ok F ∧
      cmsIT8GetProperty F "NORMALIZED_TO_Y_100" = some "YES" ∧
      (cd_it8_load cd_it8_new (some F)).2 = none ∧
      (cd_it8_load cd_it8_new (some F)).1.normalized = false ∧
      (cd_it8_load cd_it8_new (some F)).1.array_xyz =
        docWhite.array_xyz.map (fun c =>
          ⟨c.X * round6 (cdWhiteAvg docWhite).X / cdMaxWhiteY docWhite,
           c.Y * round6 (cdWhiteAvg docWhite).Y / cdMaxWhiteY docWhite,
           c.Z * round6 (cdWhiteAvg docWhite).Z / cdMaxWhiteY docWhite⟩) :=
  claim_C1_amended docWhite (Or.inr rfl) rfl rfl
    (by rw [docWhite]; simp)
    scanRet_docWhite
    (by rw [cdMaxWhiteY_docWhite]; norm_num)

/-- C4 (amended) witness: the failed-load theorem applied to `docPrior` and
unparseable bytes. -/
theorem claim_C4_amended_witness :
    (cd_it8_load docPrior none).1.array_rgb = [] ∧
    (cd_it8_load docPrior none).1.array_xyz = [] ∧
    (cd_it8_load docPrior none).1.matrix = cdMat33Zero ∧
    (cd_it8_load docPrior none).1.normalized = docPrior.normalized ∧
    (cd_it8_load docPrior none).1.spectral = docPrior.spectral ∧
    (cd_it8_load docPrior none).1.instrument = docPrior.instrument ∧
    (cd_it8_load docPrior none).1.originator = docPrior.originator ∧
    (cd_it8_load docPrior none).1.reference = docPrior.reference :=
  claim_C4_amended docPrior none CdIt8Error.Malformed rfl

/-- C5 (amended) witness: the luminance-token theorem applied to the
two-token handle `fTwoTok`. -/
theorem claim_C5_amended_witness :
    ((cd_it8_load cd_it8_new (some fTwoTok)).2 = some CdIt8Error.InvalidLuminance ↔
      (g_strsplit (cmsIT8GetProperty fTwoTok "LUMINANCE_XYZ_CDM2")).length ≠ 3) :=
  claim_C5_amended cd_it8_new fTwoTok (Or.inr (by decide)) (by decide) (by decide)

/-- C6 witness: the no-white-sample theorem applied to `docNoWhite`. -/
theorem claim_C6_witness :
    cd_it8_save docNoWhite = Except.error (some CdIt8Error.NoWhiteSample) := by
  refine claim_C6 docNoWhite (Or.inr rfl) rfl ?_
  intro i hi
  rw [show docNoWhite.array_rgb.length = 1 from rfl] at hi
  interval_cases i
  intro hc
  have h1 := hc.1
  rw [show (docNoWhite.array_rgb.getD 0 ⟨0, 0, 0⟩).R = 1 / 2 from rfl, abs_le] at h1
  have := h1.1
  norm_num at this

/-- C7 (amended) witness: the normalised-save emission theorem applied to
`docWhite`. -/
theorem claim_C7_amended_witness :
    ∃ F, cd_it8_save docWhite = Except.ok F ∧
      (cdMaxWhiteY docWhite ∈
          (whiteRefs docWhite).map (fun i => (docWhite.array_xyz.getD i ⟨0, 0, 0⟩).Y) ∧
        ∀ y ∈ (whiteRefs docWhite).map (fun i => (docWhite.array_xyz.getD i ⟨0, 0, 0⟩).Y),
          y ≤ cdMaxWhiteY docWhite) ∧
      (∀ i < docWhite.array_rgb.length,
        F.data (i, 4) =
          (docWhite.array_xyz.getD i ⟨0, 0, 0⟩).X * (100 / cdMaxWhiteY docWhite) ∧
        F.data (i, 5) =
          (docWhite.array_xyz.getD i ⟨0, 0, 0⟩).Y * (100 / cdMaxWhiteY docWhite) ∧
        F.data (i, 6) =
          (docWhite.array_xyz.getD i ⟨0, 0, 0⟩).Z * (100 / cdMaxWhiteY docWhite)) ∧
      cmsIT8GetProperty F "LUMINANCE_XYZ_CDM2" =
        some (lumiString (cdWhiteAvg docWhite).X (cdWhiteAvg docWhite).Y
          (cdWhiteAvg docWhite).Z) ∧
      (∀ j ∈ whiteRefs docWhite,
        (docWhite.array_xyz.getD j ⟨0, 0, 0⟩).Y = cdMaxWhiteY docWhite →
        F.data (j, 5) = 100) := by
  refine claim_C7_amended docWhite (Or.inr rfl) rfl whiteRefs_docWhite_ne_nil
    scanRet_docWhite ?_ ?_
  · intro i hi
    rw [whiteRefs, whiteIdxL_docWhite] at hi
    rw [List.mem_singleton] at hi
    subst hi
    rw [show (docWhite.array_xyz.getD 1 ⟨0, 0, 0⟩).Y = 100 from rfl]
    norm_num
  · rw [cdMaxWhiteY_docWhite]
    norm_num

/-- C8 witness: the alignment theorem applied to a concrete call sequence
(present/present, absent/present, absent/absent) and to a concrete
successful load. -/
theorem claim_C8_witness :
    (∃ d' : CdIt8,
      addSeq cd_it8_new
        [(some ⟨1, 0, 0⟩, some ⟨1, 2, 3⟩), (none, some ⟨4, 5, 6⟩), (none, none)] = some d' ∧
      d'.array_rgb.length = d'.array_xyz.length) ∧
    (cd_it8_load cd_it8_new (some fBadLum)).1.array_rgb.length =
      (cd_it8_load cd_it8_new (some fBadLum)).1.array_xyz.length := by
  have hseq : addSeq cd_it8_new
      [(some ⟨1, 0, 0⟩, some ⟨1, 2, 3⟩), (none, some ⟨4, 5, 6⟩), (none, none)] =
      some ⟨CdIt8Kind.unknown, cdMat33Zero, false, false, none, none, none,
        [⟨1, 0, 0⟩, ⟨0, 0, 0⟩, ⟨0, 0, 0⟩], [⟨1, 2, 3⟩, ⟨0, 0, 0⟩, ⟨0, 0, 0⟩]⟩ := rfl
  exact ⟨⟨_, hseq, claim_C8.1 cd_it8_new _ _ rfl hseq⟩,
    claim_C8.2 cd_it8_new (some fBadLum) rfl⟩

/-- C9 witness: the matrix round-trip theorem applied to `docCcmx`. -/
theorem claim_C9_witness :
    ∃ F, cd_it8_save docCcmx = Except.ok F ∧
      (cd_it8_load cd_it8_new (some F)).2 = none ∧
      (cd_it8_load cd_it8_new (some F)).1.matrix = docCcmx.matrix :=
  claim_C9 docCcmx rfl

/-- C10 witness: the RGB-division theorem applied to `docWhite` and its
successfully saved handle (the save really succeeds on `docWhite`: its last
sample is the white reference, so the clobbered return variable survives). -/
theorem claim_C10_witness :
    ∃ F, cd_it8_save docWhite = Except.ok F ∧
      cmsIT8GetProperty F "NORMALIZED_TO_Y_100" = some "YES" ∧
      (∀ i < docWhite.array_rgb.length,
        F.data (i, 1) = (docWhite.array_rgb.getD i ⟨0, 0, 0⟩).R ∧
        F.data (i, 2) = (docWhite.array_rgb.getD i ⟨0, 0, 0⟩).G ∧
        F.data (i, 3) = (docWhite.array_rgb.getD i ⟨0, 0, 0⟩).B) ∧
      (cd_it8_load cd_it8_new (some F)).2 = none ∧
      (cd_it8_load cd_it8_new (some F)).1.array_rgb =
        docWhite.array_rgb.map (fun c => ⟨c.R / 100, c.G / 100, c.B / 100⟩) := by
  obtain ⟨F, hsave, _⟩ :=
    save_norm_spec docWhite (Or.inr rfl) rfl whiteRefs_docWhite_ne_nil scanRet_docWhite
  exact ⟨F, hsave, claim_C10 docWhite F (Or.inr rfl) rfl rfl hsave⟩
